import Mathlib

/-!
# deadfrog-lib, `src/df_window_x11.cpp`: a shallow embedding

The X11 client of deadfrog-lib talks to the display server over a raw socket.
This file embeds its functions as Lean definitions and proves properties of
them.

Modelling conventions.

* The process-wide `g_state`, `g_input` and the socket traffic are threaded
  through explicitly as a `World`.
* A byte is a `Nat` (its value is taken modulo 256 where it is read).  The
  receive buffer is declared `char recv_buf[10000]`; the file is x86 only
  (`FATAL_ERROR` contains `int3`), where `char` is signed, so a read of
  `recv_buf[i]` yields `charOfByte` of the stored byte.
* `uint32_t` values are `Nat` reduced modulo `2^32` where they are stored.
  An `int` is a number that has to stay within `INT_MAX`: where a sum of two
  `int`s can exceed it (`y + num_rows_in_chunk` in `BlitBitmapToWindow`) the
  outcome is `Res.undefined`.
* What the server delivers is an explicit input: a script of `recv` results
  for `read_response`, a `HandshakeEnv` for `ensure_state`.  What the `write`
  calls of `send_buf` return is an input too: the `World` carries the list of
  their results, and `send_buf` consumes it.
* Loops that the source does not bound take a fuel argument and answer
  `Res.spin` when it runs out; `read_response` and `send_buf` answer
  `Res.starved` when the script of `recv` or `write` results is exhausted
  while they are still waiting.
* The engine's `KEY_` constants, `InputPollInternal` and `InitInput` live in
  other files of the library; they are parameters here.
-/

namespace X11

/-! ## Results of running a piece of the program -/

/-- The diagnostics with which the program terminates (`FATAL_ERROR`, or
`printf` followed by `exit(-1)` in `HandleErrorEvent`). -/
inductive Fatal where
  /-- Prints "Bad drawable". -/
  | badDrawable
  /-- Prints "Bad length". -/
  | badLength
  /-- Prints "Unknown error code %i" with the given value. -/
  | unknownErrorCode (c : Int)
  /-- Prints "bad num bytes". -/
  | badNumBytes
  /-- Prints "Couldn't read from socket. Len = %i". -/
  | couldntRead
  /-- Prints "Got an unknown message type (%i)." with the given value. -/
  | unknownMessageType (c : Int)
  /-- Prints "Received incomplete packet". -/
  | incompletePacket
  /-- Prints "Create socket failed". -/
  | createSocketFailed
  /-- Prints "Couldn't connect". -/
  | couldntConnect
  /-- Prints "Couldn't open .Xauthority.". -/
  | couldntOpenXauthority
  /-- Prints "Failed to read.". -/
  | failedToRead
  /-- Prints "Connection reply indicated failure.". -/
  | connectionFailure
  /-- Prints "Couldn't get flags of socket". -/
  | couldntGetFlags
  /-- Prints "Couldn't set socket as non-blocking". -/
  | couldntSetNonBlocking
  /-- Prints "Couldn't send buf". -/
  | couldntSendBuf
  deriving DecidableEq, Repr

/-- Outcome of running a piece of the program. -/
inductive Res (α : Type) where
  /-- Normal return. -/
  | ret (a : α)
  /-- The process terminated with the given diagnostic. -/
  | fatal (d : Fatal)
  /-- A loop used up its fuel. -/
  | spin
  /-- The script of `recv` or `write` results ended while the program was still
  waiting. -/
  | starved
  /-- The program left the defined behaviour of the language. -/
  | undefined

/-- Sequencing of outcomes. -/
def Res.bind {α β : Type} (r : Res α) (f : α → Res β) : Res β :=
  match r with
  | .ret a => f a
  | .fatal d => .fatal d
  | .spin => .spin
  | .starved => .starved
  | .undefined => .undefined

/-! ## Bytes, words and memory -/

/-- The value of a `char` object that holds byte `b` (signed `char`). -/
def charOfByte (b : Nat) : Int :=
  if b % 256 < 128 then ((b % 256 : Nat) : Int) else ((b % 256 : Nat) : Int) - 256

/-- Conversion of an `int` to `size_t` (64 bit), as in the comparisons of an
`int` with `sizeof` or with a `size_t`. -/
def toSizeT (n : Int) : Nat := (n % 2 ^ 64).toNat

/-- The byte at index `i` of an array. -/
def byteAt (a : List Nat) (i : Nat) : Nat := a.getD i 0

/-- Little-endian 16 bit value at byte offset `i`. -/
def le16At (a : List Nat) (i : Nat) : Nat :=
  byteAt a i % 256 + 256 * (byteAt a (i + 1) % 256)

/-- Little-endian 32 bit value at byte offset `i`. -/
def le32At (a : List Nat) (i : Nat) : Nat :=
  byteAt a i % 256 + 256 * (byteAt a (i + 1) % 256)
    + 65536 * (byteAt a (i + 2) % 256) + 16777216 * (byteAt a (i + 3) % 256)

/-- The four bytes of a `uint32_t` in memory (little endian). -/
def le32 (w : Nat) : List Nat :=
  [w % 256, w / 256 % 256, w / 65536 % 256, w / 16777216 % 256]

/-- The bytes of a `uint32_t` array in memory. -/
def wordsToBytes : List Nat → List Nat
  | [] => []
  | w :: ws => le32 w ++ wordsToBytes ws

/-- Storing `src` at the start of the array `dst` (`memcpy`, `memmove`, `recv`
into the start of a buffer): the first `src.length` bytes are replaced. -/
def memWrite (dst src : List Nat) : List Nat := src ++ dst.drop src.length

/-! ## The state of the program -/

/-- `sizeof(g_state.recv_buf)`. -/
def RECV_BUF_SIZE : Nat := 10000

/-- The struct `state_t`.  The pointers `pixmap_formats` and `screens` point
into `connection_reply_success_body`; they are byte offsets into it here. -/
structure state_t where
  socket_fd : Int
  recv_buf : List Nat
  recv_buf_num_bytes : Int
  connection_reply_header : List Nat
  connection_reply_success_body : List Nat
  pixmap_formats : Nat
  screens : Nat
  next_resource_id : Nat
  graphics_context_id : Nat
  window_id : Nat

/-- The fields of the engine's `g_input` that this file writes, as maps from
the index to the stored value. -/
structure InputState where
  keys : Int → Int
  keyDowns : Int → Int
  keyUps : Int → Int

/-- One call on the socket, in program order. -/
inductive Traffic where
  /-- A `send_buf` call with the bytes it writes. -/
  | send (bytes : List Nat)
  /-- A `recv` or `recvfrom` call. -/
  | read
  deriving DecidableEq, Repr

/-- What one `write` call on the socket does. -/
inductive WriteResult where
  /-- The call returns a negative value. -/
  | error
  /-- The call writes the first `min k count` of the `count` bytes it is given
  and returns that number (`write` never returns more than `count`). -/
  | wrote (k : Nat)
  deriving DecidableEq, Repr

/-- Everything the functions of this file read or write.  The field
`write_results` holds what the `write` calls still to come will do, in
order. -/
structure World where
  g_state : state_t
  g_input : InputState
  traffic : List Traffic
  write_results : List WriteResult

/-- The loop of `send_buf` with `len` bytes still to send, over the results of
the `write` calls; it returns the results that it has not used.  The `poll`
before each `write` only waits.  A `write` that returns 0 while `len` is not
0 sends the loop round again. -/
def send_loop : List WriteResult → Nat → Res (List WriteResult)
  | [], _ => Res.starved
  | WriteResult.error :: _, _ => Res.fatal Fatal.couldntSendBuf
  | WriteResult.wrote k :: rest, len =>
    let size_sent := min k len
    let len := len - size_sent
    if len = 0 then Res.ret rest else send_loop rest len

/-- The function `send_buf`.  When it returns, the whole buffer has been
written to the socket, in one `write` or in several; the traffic records the
call with the bytes written. -/
def send_buf (bytes : List Nat) (w : World) : Res World :=
  (send_loop w.write_results bytes.length).bind fun rest =>
    Res.ret { w with traffic := w.traffic ++ [Traffic.send bytes], write_results := rest }

/-- A `write` call that takes up to 262140 bytes: the whole of any buffer that
this file sends. -/
def fullWrite : WriteResult := WriteResult.wrote 262140

/-! ## Keycodes -/

/-- The engine's key constants that `ConvertX11Keycode` names; their values are
declared in another file of the library. -/
structure KeyConstants where
  KEY_ESC : Int
  KEY_1 : Int
  KEY_2 : Int
  KEY_3 : Int
  KEY_4 : Int
  KEY_5 : Int
  KEY_6 : Int
  KEY_7 : Int
  KEY_8 : Int
  KEY_9 : Int
  KEY_0 : Int
  KEY_MINUS : Int
  KEY_EQUALS : Int
  KEY_BACKSPACE : Int
  KEY_TAB : Int
  KEY_Q : Int
  KEY_W : Int
  KEY_E : Int
  KEY_R : Int
  KEY_T : Int
  KEY_Y : Int
  KEY_U : Int
  KEY_I : Int
  KEY_O : Int
  KEY_P : Int
  KEY_OPENBRACE : Int
  KEY_CLOSEBRACE : Int
  KEY_ENTER : Int
  KEY_CONTROL : Int
  KEY_A : Int
  KEY_S : Int
  KEY_D : Int
  KEY_F : Int
  KEY_G : Int
  KEY_H : Int
  KEY_J : Int
  KEY_K : Int
  KEY_L : Int
  KEY_COLON : Int
  KEY_QUOTE : Int
  KEY_SHIFT : Int
  KEY_TILDE : Int
  KEY_Z : Int
  KEY_X : Int
  KEY_C : Int
  KEY_V : Int
  KEY_B : Int
  KEY_N : Int
  KEY_M : Int
  KEY_COMMA : Int
  KEY_STOP : Int
  KEY_SLASH : Int
  KEY_ASTERISK : Int
  KEY_ALT : Int
  KEY_SPACE : Int
  KEY_CAPSLOCK : Int
  KEY_F1 : Int
  KEY_F2 : Int
  KEY_F3 : Int
  KEY_F4 : Int
  KEY_F5 : Int
  KEY_F6 : Int
  KEY_F7 : Int
  KEY_F8 : Int
  KEY_F9 : Int
  KEY_F10 : Int
  KEY_NUMLOCK : Int
  KEY_7_PAD : Int
  KEY_8_PAD : Int
  KEY_9_PAD : Int
  KEY_MINUS_PAD : Int
  KEY_4_PAD : Int
  KEY_5_PAD : Int
  KEY_6_PAD : Int
  KEY_PLUS_PAD : Int
  KEY_1_PAD : Int
  KEY_2_PAD : Int
  KEY_3_PAD : Int
  KEY_0_PAD : Int
  KEY_DEL_PAD : Int
  KEY_BACKSLASH : Int
  KEY_F11 : Int
  KEY_F12 : Int
  KEY_SLASH_PAD : Int
  KEY_HOME : Int
  KEY_UP : Int
  KEY_PGUP : Int
  KEY_LEFT : Int
  KEY_RIGHT : Int
  KEY_END : Int
  KEY_DOWN : Int
  KEY_PGDN : Int
  KEY_INSERT : Int
  KEY_DEL : Int
  KEY_PAUSE : Int

/-- The function `ConvertX11Keycode`. -/
def ConvertX11Keycode (K : KeyConstants) (i : Int) : Int :=
  match i with
  | 9 => K.KEY_ESC
  | 10 => K.KEY_1
  | 11 => K.KEY_2
  | 12 => K.KEY_3
  | 13 => K.KEY_4
  | 14 => K.KEY_5
  | 15 => K.KEY_6
  | 16 => K.KEY_7
  | 17 => K.KEY_8
  | 18 => K.KEY_9
  | 19 => K.KEY_0
  | 20 => K.KEY_MINUS
  | 21 => K.KEY_EQUALS
  | 22 => K.KEY_BACKSPACE
  | 23 => K.KEY_TAB
  | 24 => K.KEY_Q
  | 25 => K.KEY_W
  | 26 => K.KEY_E
  | 27 => K.KEY_R
  | 28 => K.KEY_T
  | 29 => K.KEY_Y
  | 30 => K.KEY_U
  | 31 => K.KEY_I
  | 32 => K.KEY_O
  | 33 => K.KEY_P
  | 34 => K.KEY_OPENBRACE
  | 35 => K.KEY_CLOSEBRACE
  | 36 => K.KEY_ENTER
  | 37 => K.KEY_CONTROL
  | 38 => K.KEY_A
  | 39 => K.KEY_S
  | 40 => K.KEY_D
  | 41 => K.KEY_F
  | 42 => K.KEY_G
  | 43 => K.KEY_H
  | 44 => K.KEY_J
  | 45 => K.KEY_K
  | 46 => K.KEY_L
  | 47 => K.KEY_COLON
  | 48 => K.KEY_QUOTE
  | 50 => K.KEY_SHIFT
  | 51 => K.KEY_TILDE
  | 52 => K.KEY_Z
  | 53 => K.KEY_X
  | 54 => K.KEY_C
  | 55 => K.KEY_V
  | 56 => K.KEY_B
  | 57 => K.KEY_N
  | 58 => K.KEY_M
  | 59 => K.KEY_COMMA
  | 60 => K.KEY_STOP
  | 61 => K.KEY_SLASH
  | 62 => K.KEY_SHIFT
  | 63 => K.KEY_ASTERISK
  | 64 => K.KEY_ALT
  | 65 => K.KEY_SPACE
  | 66 => K.KEY_CAPSLOCK
  | 67 => K.KEY_F1
  | 68 => K.KEY_F2
  | 69 => K.KEY_F3
  | 70 => K.KEY_F4
  | 71 => K.KEY_F5
  | 72 => K.KEY_F6
  | 73 => K.KEY_F7
  | 74 => K.KEY_F8
  | 75 => K.KEY_F9
  | 76 => K.KEY_F10
  | 77 => K.KEY_NUMLOCK
  | 79 => K.KEY_7_PAD
  | 80 => K.KEY_8_PAD
  | 81 => K.KEY_9_PAD
  | 82 => K.KEY_MINUS_PAD
  | 83 => K.KEY_4_PAD
  | 84 => K.KEY_5_PAD
  | 85 => K.KEY_6_PAD
  | 86 => K.KEY_PLUS_PAD
  | 87 => K.KEY_1_PAD
  | 88 => K.KEY_2_PAD
  | 89 => K.KEY_3_PAD
  | 90 => K.KEY_0_PAD
  | 91 => K.KEY_DEL_PAD
  | 94 => K.KEY_BACKSLASH
  | 95 => K.KEY_F11
  | 96 => K.KEY_F12
  | 106 => K.KEY_SLASH_PAD
  | 110 => K.KEY_HOME
  | 111 => K.KEY_UP
  | 112 => K.KEY_PGUP
  | 113 => K.KEY_LEFT
  | 114 => K.KEY_RIGHT
  | 115 => K.KEY_END
  | 116 => K.KEY_DOWN
  | 117 => K.KEY_PGDN
  | 118 => K.KEY_INSERT
  | 119 => K.KEY_DEL
  | 127 => K.KEY_PAUSE
  | _ => 0

/-! ## The message demultiplexer -/

/-- The function `HandleErrorEvent`: it prints the decoded error and exits. -/
def HandleErrorEvent (w : World) : Fatal :=
  match charOfByte (byteAt w.g_state.recv_buf 1) with
  | 9 => Fatal.badDrawable
  | 16 => Fatal.badLength
  | c => Fatal.unknownErrorCode c

/-- The function `ConsumeMessage`.  `memmove` with a negative count is left
undefined. -/
def ConsumeMessage (len : Int) (w : World) : Res World :=
  let n := w.g_state.recv_buf_num_bytes
  if n - len < 0 ∨ len < 0 then Res.undefined
  else
    let moved := (w.g_state.recv_buf.drop len.toNat).take (n - len).toNat
    let w1 : World :=
      { w with g_state :=
          { w.g_state with
              recv_buf := memWrite w.g_state.recv_buf moved
              recv_buf_num_bytes := n - len } }
    if toSizeT w1.g_state.recv_buf_num_bytes > RECV_BUF_SIZE then
      Res.fatal Fatal.badNumBytes
    else Res.ret w1

/-- The variables of the inner loop of `read_response`. -/
structure DrainState where
  w : World
  buf : List Nat
  expected_len : Nat
  keep_going : Int

/-- One pass through the body of the inner `while` of `read_response`: the
`switch` on the first byte of the receive buffer.  The comparison with
`expected_len` is made in `size_t`; the conversion of `expected_len` to the
`int` parameter of `ConsumeMessage` is exact, as it only happens for a length
that the buffer count has reached. -/
def drainStep (K : KeyConstants) (s : DrainState) : Res DrainState :=
  match charOfByte (byteAt s.w.g_state.recv_buf 0) with
  | 0 => Res.fatal (HandleErrorEvent s.w)
  | 1 =>
    if toSizeT s.w.g_state.recv_buf_num_bytes ≥ s.expected_len then
      let buf1 := memWrite s.buf (s.w.g_state.recv_buf.take s.expected_len)
      (ConsumeMessage s.expected_len s.w).bind fun w1 =>
        Res.ret { s with w := w1, buf := buf1, expected_len := 0 }
    else Res.ret { s with keep_going := 0 }
  | 2 =>
    if s.w.g_state.recv_buf_num_bytes ≥ 32 then
      let key_code := ConvertX11Keycode K (charOfByte (byteAt s.w.g_state.recv_buf 1))
      let w1 : World :=
        { s.w with g_input :=
            { s.w.g_input with keyDowns := Function.update s.w.g_input.keyDowns key_code 1 } }
      (ConsumeMessage (8 * 4) w1).bind fun w2 => Res.ret { s with w := w2 }
    else Res.ret { s with keep_going := 0 }
  | 3 =>
    if s.w.g_state.recv_buf_num_bytes ≥ 32 then
      let key_code := ConvertX11Keycode K (charOfByte (byteAt s.w.g_state.recv_buf 1))
      let w1 : World :=
        { s.w with g_input :=
            { s.w.g_input with keyUps := Function.update s.w.g_input.keyUps key_code 1 } }
      (ConsumeMessage (8 * 4) w1).bind fun w2 => Res.ret { s with w := w2 }
    else Res.ret { s with keep_going := 0 }
  | c => Res.fatal (Fatal.unknownMessageType c)

/-- The inner loop `while (keep_going && g_state.recv_buf_num_bytes)` of
`read_response`. -/
def drainLoop (K : KeyConstants) : Nat → DrainState → Res DrainState
  | 0, s =>
    if s.keep_going ≠ 0 ∧ s.w.g_state.recv_buf_num_bytes ≠ 0 then Res.spin else Res.ret s
  | fuel + 1, s =>
    if s.keep_going ≠ 0 ∧ s.w.g_state.recv_buf_num_bytes ≠ 0 then
      (drainStep K s).bind (drainLoop K fuel)
    else Res.ret s

/-- What one `recv` call on the socket gives. -/
inductive RecvResult where
  /-- The call returns `bytes.length` and stores the bytes (a length of zero is
  the "server closed the socket" case). -/
  | data (bytes : List Nat)
  /-- The call returns a negative value with `errno == EAGAIN`. -/
  | wouldBlock
  /-- The call returns a negative value with another `errno`. -/
  | error

/-- A `recv` that stores `bytes` at the start of `recv_buf`, followed by
`g_state.recv_buf_num_bytes += len`. -/
def recvInto (bytes : List Nat) (w : World) : World :=
  { w with g_state :=
      { w.g_state with
          recv_buf := memWrite w.g_state.recv_buf bytes
          recv_buf_num_bytes := w.g_state.recv_buf_num_bytes + bytes.length } }

/-- The function `read_response`; `fuel` bounds each run of the inner loop and
the list holds the results of the successive `recv` calls.  The result is the
world together with the caller's array `buf`. -/
def read_response (K : KeyConstants) (fuel : Nat) :
    List RecvResult → World → List Nat → Nat → Res (World × List Nat)
  | [], w, buf, expected_len =>
    if expected_len = 0 then Res.ret (w, buf) else Res.starved
  | r :: rest, w, buf, expected_len =>
    if expected_len = 0 then Res.ret (w, buf)
    else
      let w0 : World := { w with traffic := w.traffic ++ [Traffic.read] }
      match r with
      | RecvResult.wouldBlock => read_response K fuel rest w0 buf expected_len
      | RecvResult.error => Res.fatal Fatal.couldntRead
      | RecvResult.data bytes =>
        if bytes.length = 0 then read_response K fuel rest w0 buf expected_len
        else
          let w1 := recvInto bytes w0
          if toSizeT w1.g_state.recv_buf_num_bytes > RECV_BUF_SIZE then
            Res.fatal Fatal.badNumBytes
          else
            match drainLoop K fuel
                { w := w1, buf := buf, expected_len := expected_len, keep_going := 1 } with
            | Res.ret s =>
              if s.w.g_state.recv_buf_num_bytes ≠ 0 then Res.fatal Fatal.incompletePacket
              else read_response K fuel rest s.w s.buf s.expected_len
            | Res.fatal d => Res.fatal d
            | Res.spin => Res.spin
            | Res.starved => Res.starved
            | Res.undefined => Res.undefined

/-! ## The handshake -/

/-- What the operating system and the server give to `ensure_state`: the
return values of `socket` and `connect`, the contents of the credentials file
(`none` when `fopen` fails), and the bytes that the two `recvfrom` calls
return (`none` when the call returns an error). -/
structure HandshakeEnv where
  socket_result : Int
  connect_result : Int
  xauth_file : Option (List Nat)
  header_read : Option (List Nat)
  body_read : Option (List Nat)

/-- `sizeof(connection_request_t)`: the packed fields `order`, `pad1`,
`major_version`, `minor_version`, `auth_proto_name_len`,
`auth_proto_data_len`, `pad2`. -/
def sizeof_connection_request_t : Nat := 1 + 1 + 2 + 2 + 2 + 2 + 2

/-- `sizeof(connection_reply_header_t)`: `success`, `pad`, `major_version`,
`minor_version`, `len`. -/
def sizeof_connection_reply_header_t : Nat := 1 + 1 + 2 + 2 + 2

/-- `sizeof(pixmap_format_t)`: `depth`, `bpp`, `scanline_pad`, `pad[5]`. -/
def sizeof_pixmap_format_t : Nat := 1 + 1 + 1 + 5

/-- Offset of `id_base` in the packed `connection_reply_success_body_t`: after
`release`. -/
def offsetof_id_base : Nat := 4

/-- Offset of `vendor_len`: after `release`, `id_base`, `id_mask`,
`motion_buffer_size`. -/
def offsetof_vendor_len : Nat := 4 + 4 + 4 + 4

/-- Offset of `num_pixmap_formats`: after the fields up to `vendor_len`, then
`request_max` and `num_screens`. -/
def offsetof_num_pixmap_formats : Nat := offsetof_vendor_len + 2 + 2 + 1

/-- Offset of `vendor_string`: after `num_pixmap_formats`, `image_byte_order`,
`bitmap_bit_order`, `scanline_unit`, `scanline_pad`, `keycode_min`,
`keycode_max` and `pad`. -/
def offsetof_vendor_string : Nat := offsetof_num_pixmap_formats + 1 + 1 + 1 + 1 + 1 + 1 + 1 + 4

/-- Offset of `len` in the packed `connection_reply_header_t`. -/
def offsetof_header_len : Nat := 1 + 1 + 2 + 2

/-- Offset of `root_id` in the packed `screen_t`: its first field. -/
def offsetof_root_id : Nat := 0

/-- Offset of `width` in `screen_t`: after `root_id`, `colormap`, `white`,
`black`, `input_mask`. -/
def offsetof_screen_width : Nat := 4 + 4 + 4 + 4 + 4

/-- Offset of `height` in `screen_t`. -/
def offsetof_screen_height : Nat := offsetof_screen_width + 2

/-- The field `vendor_len` of a reply body. -/
def vendor_len (body : List Nat) : Nat := le16At body offsetof_vendor_len

/-- The field `num_pixmap_formats` of a reply body. -/
def num_pixmap_formats (body : List Nat) : Nat := byteAt body offsetof_num_pixmap_formats % 256

/-- The field `id_base` of a reply body. -/
def id_base (body : List Nat) : Nat := le32At body offsetof_id_base

/-- The two bytes of a `uint16_t` in memory (little endian). -/
def le16 (v : Nat) : List Nat := [v % 256, v / 256 % 256]

/-- The bytes of the `connection_request_t` that `ensure_state` fills in:
`order = 'l'`, versions 11 and 0, name length 18, data length 16, the rest
zero. -/
def connection_request : List Nat :=
  [108, 0] ++ le16 11 ++ le16 0 ++ le16 18 ++ le16 16 ++ le16 0

/-- The 20 bytes of the literal `"MIT-MAGIC-COOKIE-1\0\0"`. -/
def auth_proto_name : List Nat :=
  [77, 73, 84, 45, 77, 65, 71, 73, 67, 45, 67, 79, 79, 75, 73, 69, 45, 49, 0, 0]

/-- The function `fatal_read`: one `recvfrom` that must return `count`
bytes. -/
def fatal_read (r : Option (List Nat)) (count : Nat) (w : World) : Res (World × List Nat) :=
  let w1 : World := { w with traffic := w.traffic ++ [Traffic.read] }
  match r with
  | none => Res.fatal Fatal.failedToRead
  | some bytes => if bytes.length = count then Res.ret (w1, bytes) else Res.fatal Fatal.failedToRead

/-- The function `ensure_state`.  Taking the last 16 bytes of a credentials
blob shorter than 16 bytes, and reading the fixed fields of a reply body that
is too short to hold them, are left undefined. -/
def ensure_state (env : HandshakeEnv) (w : World) : Res World :=
  if w.g_state.socket_fd ≥ 0 then Res.ret w
  else if env.socket_result < 0 then Res.fatal Fatal.createSocketFailed
  else if env.connect_result < 0 then Res.fatal Fatal.couldntConnect
  else
    match env.xauth_file with
    | none => Res.fatal Fatal.couldntOpenXauthority
    | some file =>
      let xauth_cookie := file.take 4096
      let xauth_len := xauth_cookie.length
      if xauth_len < 16 then Res.undefined
      else
        let w1 : World := { w with g_state := { w.g_state with socket_fd := env.socket_result } }
        (send_buf connection_request w1).bind fun w2 =>
        (send_buf auth_proto_name w2).bind fun w3 =>
        (send_buf ((xauth_cookie.drop (xauth_len - 16)).take 16) w3).bind fun w4 =>
        (fatal_read env.header_read sizeof_connection_reply_header_t w4).bind fun r1 =>
          let header := r1.2
          if byteAt header 0 % 256 = 0 then Res.fatal Fatal.connectionFailure
          else
            (fatal_read env.body_read (le16At header offsetof_header_len * 4) r1.1).bind fun r2 =>
              let body := r2.2
              if body.length < offsetof_vendor_string then Res.undefined
              else
                let pixmap_formats := offsetof_vendor_string + vendor_len body
                let screens := pixmap_formats + sizeof_pixmap_format_t * num_pixmap_formats body
                Res.ret
                  { r2.1 with g_state :=
                      { r2.1.g_state with
                          connection_reply_header := header
                          connection_reply_success_body := body
                          pixmap_formats := pixmap_formats
                          screens := screens
                          next_resource_id := id_base body } }

/-! ## Resource ids and the window requests -/

/-- The function `generate_id`: the counter is a `uint32_t`. -/
def generate_id (w : World) : Nat × World :=
  (w.g_state.next_resource_id,
    { w with g_state :=
        { w.g_state with next_resource_id := (w.g_state.next_resource_id + 1) % 2 ^ 32 } })

/-- Calling `generate_id` `n` times: the ids returned, in order, and the world
afterwards. -/
def generate_ids : Nat → World → List Nat × World
  | 0, w => ([], w)
  | n + 1, w =>
    let r := generate_id w
    let rs := generate_ids n r.2
    (r.1 :: rs.1, rs.2)

/-- The opcode `X11_OPCODE_CREATE_WINDOW`. -/
def X11_OPCODE_CREATE_WINDOW : Nat := 1

/-- The opcode `X11_OPCODE_MAP_WINDOW`. -/
def X11_OPCODE_MAP_WINDOW : Nat := 8

/-- The opcode `X11_OPCODE_QUERY_KEYMAP`. -/
def X11_OPCODE_QUERY_KEYMAP : Nat := 44

/-- The opcode `X11_OPCODE_CREATE_GC`. -/
def X11_OPCODE_CREATE_GC : Nat := 55

/-- The opcode `X11_OPCODE_PUT_IMAGE`. -/
def X11_OPCODE_PUT_IMAGE : Nat := 72

/-- The words of the packet that `create_gc` builds. -/
def create_gc_packet (graphics_context_id window_id : Nat) : List Nat :=
  [X11_OPCODE_CREATE_GC ||| (4 <<< 16), graphics_context_id, window_id, 0]

/-- The function `create_gc`. -/
def create_gc (w : World) : Res World :=
  let r := generate_id w
  let w1 : World := { r.2 with g_state := { r.2.g_state with graphics_context_id := r.1 } }
  send_buf (wordsToBytes (create_gc_packet w1.g_state.graphics_context_id w1.g_state.window_id)) w1

/-- The words of the packet that `map_window` builds. -/
def map_window_packet (window_id : Nat) : List Nat :=
  [X11_OPCODE_MAP_WINDOW ||| (2 <<< 16), window_id]

/-- The function `map_window`; it sends 8 bytes, the whole packet. -/
def map_window (w : World) : Res World :=
  send_buf ((wordsToBytes (map_window_packet w.g_state.window_id)).take 8) w

/-- The words of the packet that `CreateWin` builds; the `int` expression
`width | (height<<16)` is stored into a `uint32_t`. -/
def create_window_packet (window_id root_id width height : Nat) : List Nat :=
  [X11_OPCODE_CREATE_WINDOW ||| (9 <<< 16), window_id, root_id, 0,
    (width ||| (height <<< 16)) % 2 ^ 32, 0, 0, 0x800, 1 ||| 2]

/-- The field `root_id` of `g_state.screens[0]`. -/
def screen0_root_id (st : state_t) : Nat :=
  le32At st.connection_reply_success_body (st.screens + offsetof_root_id)

/-- What the operating system gives to `CreateWin` besides the handshake: the
return values of the two `fcntl` calls. -/
structure CreateWinEnv where
  handshake : HandshakeEnv
  fcntl_getfl : Int
  fcntl_setfl : Int

/-- The function `CreateWin`, for non-negative `width` and `height`.  The
allocation of the window structure and its bitmap does not touch the state
modelled here; `InitInput` belongs to another file and is a parameter. -/
def CreateWin (InitInput : InputState → InputState) (env : CreateWinEnv)
    (width height : Nat) (w : World) : Res World :=
  (ensure_state env.handshake w).bind fun w1 =>
    let r := generate_id w1
    let w2 : World := { r.2 with g_state := { r.2.g_state with window_id := r.1 } }
    let packet :=
      create_window_packet w2.g_state.window_id (screen0_root_id w2.g_state) width height
    (send_buf (wordsToBytes packet) w2).bind fun w3 =>
    (create_gc w3).bind fun w4 =>
    (map_window w4).bind fun w5 =>
    if env.fcntl_getfl = -1 then Res.fatal Fatal.couldntGetFlags
    else if env.fcntl_setfl ≠ 0 then Res.fatal Fatal.couldntSetNonBlocking
    else Res.ret { w5 with g_input := InitInput w5.g_input }

/-! ## Sending the bitmap -/

/-- The constant `MAX_BYTES_PER_REQUEST` of `BlitBitmapToWindow`. -/
def MAX_BYTES_PER_REQUEST : Nat := 262140

/-- One pass through the loop of `BlitBitmapToWindow`: the value of `y`, the
clamped `num_rows_in_chunk`, the six words of `packet` and the bytes of the
second `send_buf`. -/
structure Strip where
  y : Nat
  num_rows_in_chunk : Nat
  packet : List Nat
  payload : List Nat
  deriving DecidableEq, Repr

/-- The words of the put-image packet of one strip; `request_len` is computed
as a `uint32_t` and shifted left by 16.  The `int` expressions
`W | (num_rows_in_chunk << 16)` and `0 | (y << 16)` are stored into `uint32_t`
words: the words hold their low 32 bits. -/
def put_image_packet (window_id graphics_context_id W num_rows_in_chunk y : Nat) : List Nat :=
  let bmp_format := 2 <<< 8
  let request_len := (((W * num_rows_in_chunk + 6) % 2 ^ 32) <<< 16) % 2 ^ 32
  [X11_OPCODE_PUT_IMAGE ||| bmp_format ||| request_len,
    window_id,
    graphics_context_id,
    (W ||| (num_rows_in_chunk <<< 16)) % 2 ^ 32,
    (0 ||| (y <<< 16)) % 2 ^ 32,
    24 <<< 8]

/-- Modelled from the spec: `DfColour` is declared in another file; the spec
fixes 32-bit-per-pixel storage, so the bitmap is a list of 32 bit pixels and
`count` pixels starting at pixel `row` occupy `4 * count` bytes (a pixel
outside the bitmap reads as 0). -/
def pixel_bytes (pixels : List Nat) (row count : Nat) : List Nat :=
  wordsToBytes ((List.range count).map fun i => pixels.getD (row + i) 0)

/-- The largest value of an `int`. -/
def INT_MAX : Nat := 2147483647

/-- The `for` loop of `BlitBitmapToWindow`, with the loop variables `y`,
`num_rows_in_chunk` and `row` (a pixel index into the bitmap).  The sum
`y + num_rows_in_chunk` of the test is an `int`: beyond `INT_MAX` it is
undefined. -/
def blitSend (W H : Nat) (pixels : List Nat) : Nat → Nat → Nat → Nat → World → Res World
  | 0, y, _, _, w => if y < H then Res.spin else Res.ret w
  | fuel + 1, y, num_rows_in_chunk, row, w =>
    if y < H then
      if y + num_rows_in_chunk > INT_MAX then Res.undefined
      else
        let num_rows_in_chunk := if y + num_rows_in_chunk > H then H - y else num_rows_in_chunk
        let packet :=
          put_image_packet w.g_state.window_id w.g_state.graphics_context_id W num_rows_in_chunk y
        (send_buf (wordsToBytes packet) w).bind fun w1 =>
        (send_buf (pixel_bytes pixels row (W * num_rows_in_chunk)) w1).bind fun w2 =>
        blitSend W H pixels fuel (y + num_rows_in_chunk) num_rows_in_chunk
          (row + W * num_rows_in_chunk) w2
    else Res.ret w

/-- The function `BlitBitmapToWindow` on the bitmap of the window, of width `W`
and height `H` (non-negative); the division by a zero width is undefined. -/
def BlitBitmapToWindow (fuel : Nat) (W H : Nat) (pixels : List Nat) (w : World) : Res World :=
  if W = 0 then Res.undefined
  else blitSend W H pixels fuel 0 (MAX_BYTES_PER_REQUEST / 4 / W) 0 w

/-- The loop of `BlitBitmapToWindow` with the two `send_buf` calls left out:
the strips that the loop goes through, for the ids `window_id` and
`graphics_context_id` of `g_state`. -/
def blitLoop (window_id graphics_context_id W H : Nat) (pixels : List Nat) :
    Nat → Nat → Nat → Nat → Res (List Strip)
  | 0, y, _, _ => if y < H then Res.spin else Res.ret []
  | fuel + 1, y, num_rows_in_chunk, row =>
    if y < H then
      if y + num_rows_in_chunk > INT_MAX then Res.undefined
      else
        let num_rows_in_chunk := if y + num_rows_in_chunk > H then H - y else num_rows_in_chunk
        let strip : Strip :=
          { y := y
            num_rows_in_chunk := num_rows_in_chunk
            packet := put_image_packet window_id graphics_context_id W num_rows_in_chunk y
            payload := pixel_bytes pixels row (W * num_rows_in_chunk) }
        (blitLoop window_id graphics_context_id W H pixels fuel
            (y + num_rows_in_chunk) num_rows_in_chunk (row + W * num_rows_in_chunk)).bind
          fun strips => Res.ret (strip :: strips)
    else Res.ret []

/-- The strips of `BlitBitmapToWindow` for a bitmap of width `W` and height
`H` (non-negative); the division by a zero width is undefined. -/
def blitStrips (fuel : Nat) (window_id graphics_context_id W H : Nat) (pixels : List Nat) :
    Res (List Strip) :=
  if W = 0 then Res.undefined
  else blitLoop window_id graphics_context_id W H pixels fuel 0 (MAX_BYTES_PER_REQUEST / 4 / W) 0

/-- The two `send_buf` calls of one strip. -/
def sendStrip (s : Strip) (w : World) : Res World :=
  (send_buf (wordsToBytes s.packet) w).bind fun w1 => send_buf s.payload w1

/-- The `send_buf` calls of a list of strips, in order. -/
def sendStrips : List Strip → World → Res World
  | [], w => Res.ret w
  | s :: strips, w => (sendStrip s w).bind fun w1 => sendStrips strips w1

/-- The number of bytes that the two `send_buf` calls of a strip write. -/
def Strip.bytesSent (s : Strip) : Nat := (wordsToBytes s.packet).length + s.payload.length

/-- The 16 bit length field of a request: the upper half of its first word. -/
def lengthField (packet : List Nat) : Nat := packet.getD 0 0 / 2 ^ 16 % 2 ^ 16

/-! ## Polling the keyboard -/

/-- The words of the query-keymap packet of `InputPoll`. -/
def query_keymap_packet : List Nat := [X11_OPCODE_QUERY_KEYMAP ||| (1 <<< 16)]

/-- The inner loop of the decoder in `InputPoll` for byte index `i`: the loop
variables are the `keys` array and `bits`. -/
def decodeByte (K : KeyConstants) (i : Nat) (st : (Int → Int) × Nat) : (Int → Int) × Nat :=
  (List.range 8).foldl
    (fun acc j =>
      let x11_keycode : Int := ((i * 8 + j : Nat) : Int)
      let df_keycode := ConvertX11Keycode K x11_keycode
      (Function.update acc.1 df_keycode (((acc.2 &&& 1 : Nat) : Int)), (acc.2 >>> 1) % 256))
    st

/-- The decode loop of `InputPoll` over the 40 byte reply `resp`. -/
def decodeKeymap (K : KeyConstants) (resp : List Nat) (keys : Int → Int) : Int → Int :=
  (List.range 32).foldl (fun ks i => (decodeByte K i (ks, byteAt resp (8 + i) % 256)).1) keys

/-- The function `InputPoll`; `InputPollInternal` belongs to another file and
is a parameter.  The array `resp` starts out as `resp0`. -/
def InputPoll (K : KeyConstants) (InputPollInternal : InputState → InputState)
    (fuel : Nat) (script : List RecvResult) (resp0 : List Nat) (w : World) : Res World :=
  let w1 : World := { w with g_input := InputPollInternal w.g_input }
  (send_buf (wordsToBytes query_keymap_packet) w1).bind fun w2 =>
  (read_response K fuel script w2 resp0 40).bind fun r =>
    Res.ret { r.1 with g_input := { r.1.g_input with keys := decodeKeymap K r.2 r.1.g_input.keys } }

/-- The effect of a list of complete key event frames on the input state: a
frame with first byte 2 sets `keyDowns`, any other sets `keyUps`, at the
engine key of the keycode in the second byte. -/
def keyEffects (K : KeyConstants) (frames : List (List Nat)) (inp : InputState) : InputState :=
  frames.foldl
    (fun acc f =>
      let key_code := ConvertX11Keycode K (charOfByte (byteAt f 1))
      if byteAt f 0 = 2 then { acc with keyDowns := Function.update acc.keyDowns key_code 1 }
      else { acc with keyUps := Function.update acc.keyUps key_code 1 })
    inp

/-! ## Concrete inputs -/

/-- The input state with every entry zero. -/
def zeroInput : InputState :=
  { keys := fun _ => 0, keyDowns := fun _ => 0, keyUps := fun _ => 0 }

/-- The world at program start: `g_state = { .socket_fd = -1 }` with the other
fields zero, no traffic on the socket yet, and an operating system whose
next 35 `write` calls take all they are given. -/
def initialWorld : World :=
  { g_state :=
      { socket_fd := -1
        recv_buf := List.replicate 10000 0
        recv_buf_num_bytes := 0
        connection_reply_header := List.replicate 8 0
        connection_reply_success_body := []
        pixmap_formats := 0
        screens := 0
        next_resource_id := 0
        graphics_context_id := 0
        window_id := 0 }
    g_input := zeroInput
    traffic := []
    write_results := List.replicate 35 fullWrite }

/-- A handshake reply body of 84 bytes with the given four bytes of `id_base`:
the fixed fields, the vendor string "abcd" (`vendor_len = 4`), one pixmap
format and one screen of 1920 by 1080 pixels with root window 0x1E3. -/
def sampleBody (b0 b1 b2 b3 : Nat) : List Nat :=
  [0, 0, 0, 0, b0, b1, b2, b3, 255, 255, 31, 0, 0, 1, 0, 0,
   4, 0, 255, 255, 1, 1, 0, 0, 32, 32, 8, 255, 0, 0, 0, 0,
   97, 98, 99, 100,
   24, 32, 32, 0, 0, 0, 0, 0,
   227, 1, 0, 0, 32, 0, 0, 0, 255, 255, 255, 0, 0, 0, 0, 0, 0, 0, 250, 0,
   128, 7, 56, 4, 252, 1, 29, 1, 1, 0, 1, 0, 33, 0, 0, 0, 0, 0, 24, 1]

/-- A successful handshake that delivers the given reply body of 84 bytes:
the socket is descriptor 3, the credentials file has 20 bytes. -/
def sampleHandshake (body : List Nat) : HandshakeEnv :=
  { socket_result := 3
    connect_result := 0
    xauth_file := some [1, 0, 0, 4, 1, 2, 3, 4, 5, 6, 7, 8, 9, 10, 11, 12, 13, 14, 15, 16]
    header_read := some [1, 0, 11, 0, 0, 0, 21, 0]
    body_read := some body }

/-- The world after the successful handshake `sampleHandshake` from the initial
world, for a reply body with the given bytes of `id_base`; the three
`send_buf` calls have used three of the `write` results. -/
def handshakenWorld (b0 b1 b2 b3 : Nat) : World :=
  { g_state :=
      { initialWorld.g_state with
          socket_fd := 3
          connection_reply_header := [1, 0, 11, 0, 0, 0, 21, 0]
          connection_reply_success_body := sampleBody b0 b1 b2 b3
          pixmap_formats := 36
          screens := 44
          next_resource_id := id_base (sampleBody b0 b1 b2 b3) }
    g_input := zeroInput
    traffic :=
      [Traffic.send connection_request, Traffic.send auth_proto_name,
       Traffic.send [1, 2, 3, 4, 5, 6, 7, 8, 9, 10, 11, 12, 13, 14, 15, 16],
       Traffic.read, Traffic.read]
    write_results := List.replicate 32 fullWrite }

/-- A choice of values for the key constants, all different and none zero:
each constant gets the first server keycode that the table maps to it. -/
def sampleKeys : KeyConstants :=
  { KEY_ESC := 9, KEY_1 := 10, KEY_2 := 11, KEY_3 := 12, KEY_4 := 13, KEY_5 := 14,
    KEY_6 := 15, KEY_7 := 16, KEY_8 := 17, KEY_9 := 18, KEY_0 := 19, KEY_MINUS := 20,
    KEY_EQUALS := 21, KEY_BACKSPACE := 22, KEY_TAB := 23, KEY_Q := 24, KEY_W := 25,
    KEY_E := 26, KEY_R := 27, KEY_T := 28, KEY_Y := 29, KEY_U := 30, KEY_I := 31, KEY_O := 32,
    KEY_P := 33, KEY_OPENBRACE := 34, KEY_CLOSEBRACE := 35, KEY_ENTER := 36,
    KEY_CONTROL := 37, KEY_A := 38, KEY_S := 39, KEY_D := 40, KEY_F := 41, KEY_G := 42,
    KEY_H := 43, KEY_J := 44, KEY_K := 45, KEY_L := 46, KEY_COLON := 47, KEY_QUOTE := 48,
    KEY_SHIFT := 50, KEY_TILDE := 51, KEY_Z := 52, KEY_X := 53, KEY_C := 54, KEY_V := 55,
    KEY_B := 56, KEY_N := 57, KEY_M := 58, KEY_COMMA := 59, KEY_STOP := 60, KEY_SLASH := 61,
    KEY_ASTERISK := 63, KEY_ALT := 64, KEY_SPACE := 65, KEY_CAPSLOCK := 66, KEY_F1 := 67,
    KEY_F2 := 68, KEY_F3 := 69, KEY_F4 := 70, KEY_F5 := 71, KEY_F6 := 72, KEY_F7 := 73,
    KEY_F8 := 74, KEY_F9 := 75, KEY_F10 := 76, KEY_NUMLOCK := 77, KEY_7_PAD := 79,
    KEY_8_PAD := 80, KEY_9_PAD := 81, KEY_MINUS_PAD := 82, KEY_4_PAD := 83, KEY_5_PAD := 84,
    KEY_6_PAD := 85, KEY_PLUS_PAD := 86, KEY_1_PAD := 87, KEY_2_PAD := 88, KEY_3_PAD := 89,
    KEY_0_PAD := 90, KEY_DEL_PAD := 91, KEY_BACKSLASH := 94, KEY_F11 := 95, KEY_F12 := 96,
    KEY_SLASH_PAD := 106, KEY_HOME := 110, KEY_UP := 111, KEY_PGUP := 112, KEY_LEFT := 113,
    KEY_RIGHT := 114, KEY_END := 115, KEY_DOWN := 116, KEY_PGDN := 117, KEY_INSERT := 118,
    KEY_DEL := 119, KEY_PAUSE := 127 }

/-- Bit `k mod 8`, least significant bit first, of byte `8 + k div 8` of a
query-keymap reply: the state of server keycode `k`. -/
def keymapBit (resp : List Nat) (k : Nat) : Nat :=
  byteAt resp (8 + k / 8) % 256 / 2 ^ (k % 8) % 2

/-- A query-keymap reply of 40 bytes in which only keycode 50 (the left shift
key) is down: bit 2 of byte 8 + 6. -/
def sampleKeymapReply : List Nat :=
  [1, 0, 0, 0, 2, 0, 0, 0,
   0, 0, 0, 0, 0, 0, 4, 0, 0, 0, 0, 0, 0, 0, 0, 0,
   0, 0, 0, 0, 0, 0, 0, 0, 0, 0, 0, 0, 0, 0, 0, 0]

/-- A query-keymap reply of 40 bytes in which keycode 38 (the key A) and
keycode 50 (the left shift key) are down and every other key is up, keycode 62
(the right shift key) among them: bit 6 of byte 8 + 4 and bit 2 of byte
8 + 6. -/
def leftShiftKeymapReply : List Nat :=
  [1, 0, 0, 0, 2, 0, 0, 0,
   0, 0, 0, 0, 64, 0, 4, 0, 0, 0, 0, 0, 0, 0, 0, 0,
   0, 0, 0, 0, 0, 0, 0, 0, 0, 0, 0, 0, 0, 0, 0, 0]

/-! ## The contents of the receive buffer -/

/-- The first `valid.length` bytes of the receive buffer are `valid`, and that
many bytes are counted as valid. -/
def Holds (w : World) (valid : List Nat) : Prop :=
  w.g_state.recv_buf_num_bytes = valid.length ∧
  w.g_state.recv_buf.take valid.length = valid

/-- A key-press event frame (32 bytes) for server keycode 38. -/
def samplePressFrame : List Nat :=
  [2, 38, 7, 0, 120, 86, 52, 18, 227, 1, 0, 0, 0, 0, 64, 4,
   0, 0, 0, 0, 10, 0, 20, 0, 10, 0, 20, 0, 0, 0, 1, 0]

/-- A key-release event frame (32 bytes) for server keycode 38. -/
def sampleReleaseFrame : List Nat :=
  [3, 38, 8, 0, 130, 86, 52, 18, 227, 1, 0, 0, 0, 0, 64, 4,
   0, 0, 0, 0, 10, 0, 20, 0, 10, 0, 20, 0, 0, 0, 1, 0]

/-- An error frame (32 bytes) with error code 200 in its second byte. -/
def sampleErrorFrame : List Nat :=
  [0, 200, 9, 0, 0, 0, 0, 0, 0, 0, 72, 0, 0, 0, 0, 0,
   0, 0, 0, 0, 0, 0, 0, 0, 0, 0, 0, 0, 0, 0, 0, 0]

/-! ## The keycode table as data -/

/-- The `case` labels of the `switch` in `ConvertX11Keycode` with the constants
they return, in the order of the source. -/
def keycodeTable (K : KeyConstants) : List (Int × Int) :=
  [(9, K.KEY_ESC), (10, K.KEY_1), (11, K.KEY_2), (12, K.KEY_3), (13, K.KEY_4), (14, K.KEY_5),
   (15, K.KEY_6), (16, K.KEY_7), (17, K.KEY_8), (18, K.KEY_9), (19, K.KEY_0),
   (20, K.KEY_MINUS), (21, K.KEY_EQUALS), (22, K.KEY_BACKSPACE), (23, K.KEY_TAB),
   (24, K.KEY_Q), (25, K.KEY_W), (26, K.KEY_E), (27, K.KEY_R), (28, K.KEY_T), (29, K.KEY_Y),
   (30, K.KEY_U), (31, K.KEY_I), (32, K.KEY_O), (33, K.KEY_P), (34, K.KEY_OPENBRACE),
   (35, K.KEY_CLOSEBRACE), (36, K.KEY_ENTER), (37, K.KEY_CONTROL), (38, K.KEY_A),
   (39, K.KEY_S), (40, K.KEY_D), (41, K.KEY_F), (42, K.KEY_G), (43, K.KEY_H), (44, K.KEY_J),
   (45, K.KEY_K), (46, K.KEY_L), (47, K.KEY_COLON), (48, K.KEY_QUOTE), (50, K.KEY_SHIFT),
   (51, K.KEY_TILDE), (52, K.KEY_Z), (53, K.KEY_X), (54, K.KEY_C), (55, K.KEY_V),
   (56, K.KEY_B), (57, K.KEY_N), (58, K.KEY_M), (59, K.KEY_COMMA), (60, K.KEY_STOP),
   (61, K.KEY_SLASH), (62, K.KEY_SHIFT), (63, K.KEY_ASTERISK), (64, K.KEY_ALT),
   (65, K.KEY_SPACE), (66, K.KEY_CAPSLOCK), (67, K.KEY_F1), (68, K.KEY_F2), (69, K.KEY_F3),
   (70, K.KEY_F4), (71, K.KEY_F5), (72, K.KEY_F6), (73, K.KEY_F7), (74, K.KEY_F8),
   (75, K.KEY_F9), (76, K.KEY_F10), (77, K.KEY_NUMLOCK), (79, K.KEY_7_PAD), (80, K.KEY_8_PAD),
   (81, K.KEY_9_PAD), (82, K.KEY_MINUS_PAD), (83, K.KEY_4_PAD), (84, K.KEY_5_PAD),
   (85, K.KEY_6_PAD), (86, K.KEY_PLUS_PAD), (87, K.KEY_1_PAD), (88, K.KEY_2_PAD),
   (89, K.KEY_3_PAD), (90, K.KEY_0_PAD), (91, K.KEY_DEL_PAD), (94, K.KEY_BACKSLASH),
   (95, K.KEY_F11), (96, K.KEY_F12), (106, K.KEY_SLASH_PAD), (110, K.KEY_HOME),
   (111, K.KEY_UP), (112, K.KEY_PGUP), (113, K.KEY_LEFT), (114, K.KEY_RIGHT), (115, K.KEY_END),
   (116, K.KEY_DOWN), (117, K.KEY_PGDN), (118, K.KEY_INSERT), (119, K.KEY_DEL),
   (127, K.KEY_PAUSE)]

/-- The server keycodes that have a `case` in `ConvertX11Keycode`: 9..48,
50..77, 79..91, 94..96, 106, 110..119 and 127. -/
def inKeycodeTable (i : Int) : Prop :=
  (9 ≤ i ∧ i ≤ 48) ∨ (50 ≤ i ∧ i ≤ 77) ∨ (79 ≤ i ∧ i ≤ 91) ∨ (94 ≤ i ∧ i ≤ 96) ∨
    i = 106 ∨ (110 ≤ i ∧ i ≤ 119) ∨ i = 127

/-- A key-press event frame (32 bytes) for server keycode 49, which has no
`case` in `ConvertX11Keycode`. -/
def sampleUnmappedPressFrame : List Nat :=
  [2, 49, 7, 0, 120, 86, 52, 18, 227, 1, 0, 0, 0, 0, 64, 4,
   0, 0, 0, 0, 10, 0, 20, 0, 10, 0, 20, 0, 0, 0, 1, 0]

/-! ## The states of the inner loop -/

/-- The states that the inner loop of `read_response` passes through when it
starts in `s`: `s` itself, and the state after a pass of the loop body from
any such state in which the loop condition holds. -/
inductive DrainReach (K : KeyConstants) (s : DrainState) : DrainState → Prop where
  /-- The state in which the loop starts. -/
  | start : DrainReach K s s
  /-- One more pass of the loop body. -/
  | pass (t u : DrainState) :
      DrainReach K s t →
      (t.keep_going ≠ 0 ∧ t.w.g_state.recv_buf_num_bytes ≠ 0) →
      drainStep K t = Res.ret u →
      DrainReach K s u

/-- The valid-byte count of the receive buffer is within the buffer:
`0 ≤ recv_buf_num_bytes ≤ sizeof(recv_buf)`. -/
def CountInRange (w : World) : Prop :=
  0 ≤ w.g_state.recv_buf_num_bytes ∧ w.g_state.recv_buf_num_bytes ≤ (RECV_BUF_SIZE : Int)

/-- The worlds that `read_response` passes through without terminating the
program, when it is called in world `w` with the given script of `recv`
results, array `buf` and expected length: the world at the call, the world
after a `recv` that was found to fit the buffer, the worlds of the states that
the inner loop passes through, and the worlds reached in the later passes of
the outer loop. -/
inductive ReadReach (K : KeyConstants) (fuel : Nat) :
    List RecvResult → World → List Nat → Nat → World → Prop where
  /-- The world at the call, or at the head of the outer loop. -/
  | start (script : List RecvResult) (w : World) (buf : List Nat) (L : Nat) :
      ReadReach K fuel script w buf L w
  /-- A `recv` that gives would-block: the outer loop goes on. -/
  | wouldBlock (rest : List RecvResult) (w : World) (buf : List Nat) (L : Nat) (x : World) :
      L ≠ 0 →
      ReadReach K fuel rest { w with traffic := w.traffic ++ [Traffic.read] } buf L x →
      ReadReach K fuel (RecvResult.wouldBlock :: rest) w buf L x
  /-- A `recv` that returns zero: the outer loop goes on. -/
  | closed (bytes : List Nat) (rest : List RecvResult) (w : World) (buf : List Nat) (L : Nat)
      (x : World) :
      L ≠ 0 → bytes.length = 0 →
      ReadReach K fuel rest { w with traffic := w.traffic ++ [Traffic.read] } buf L x →
      ReadReach K fuel (RecvResult.data bytes :: rest) w buf L x
  /-- A state of the inner loop after a `recv` that delivered bytes. -/
  | drain (bytes : List Nat) (rest : List RecvResult) (w : World) (buf : List Nat) (L : Nat)
      (t : DrainState) :
      L ≠ 0 → bytes.length ≠ 0 →
      ¬ toSizeT (recvInto bytes { w with traffic := w.traffic ++ [Traffic.read] }).g_state.recv_buf_num_bytes
          > RECV_BUF_SIZE →
      DrainReach K
        { w := recvInto bytes { w with traffic := w.traffic ++ [Traffic.read] },
          buf := buf, expected_len := L, keep_going := 1 } t →
      ReadReach K fuel (RecvResult.data bytes :: rest) w buf L t.w
  /-- The inner loop has ended with an empty buffer: the outer loop goes on. -/
  | next (bytes : List Nat) (rest : List RecvResult) (w : World) (buf : List Nat) (L : Nat)
      (s : DrainState) (x : World) :
      L ≠ 0 → bytes.length ≠ 0 →
      ¬ toSizeT (recvInto bytes { w with traffic := w.traffic ++ [Traffic.read] }).g_state.recv_buf_num_bytes
          > RECV_BUF_SIZE →
      drainLoop K fuel
        { w := recvInto bytes { w with traffic := w.traffic ++ [Traffic.read] },
          buf := buf, expected_len := L, keep_going := 1 } = Res.ret s →
      s.w.g_state.recv_buf_num_bytes = 0 →
      ReadReach K fuel rest s.w s.buf s.expected_len x →
      ReadReach K fuel (RecvResult.data bytes :: rest) w buf L x

/-! ## The two halves of the handshake -/

/-- The part of `ensure_state` before its first `fatal_read`, for a connection
that is not established: `socket`, `connect`, reading the credentials file and
the three `send_buf` calls of the connection request. -/
def ensure_state_sends (env : HandshakeEnv) (w : World) : Res World :=
  if env.socket_result < 0 then Res.fatal Fatal.createSocketFailed
  else if env.connect_result < 0 then Res.fatal Fatal.couldntConnect
  else
    match env.xauth_file with
    | none => Res.fatal Fatal.couldntOpenXauthority
    | some file =>
      let xauth_cookie := file.take 4096
      let xauth_len := xauth_cookie.length
      if xauth_len < 16 then Res.undefined
      else
        let w1 : World := { w with g_state := { w.g_state with socket_fd := env.socket_result } }
        (send_buf connection_request w1).bind fun w2 =>
        (send_buf auth_proto_name w2).bind fun w3 =>
        send_buf ((xauth_cookie.drop (xauth_len - 16)).take 16) w3

/-- The part of `ensure_state` from its first `fatal_read` on: the two reads
and the fields set from the reply. -/
def ensure_state_reads (env : HandshakeEnv) (w4 : World) : Res World :=
  (fatal_read env.header_read sizeof_connection_reply_header_t w4).bind fun r1 =>
    let header := r1.2
    if byteAt header 0 % 256 = 0 then Res.fatal Fatal.connectionFailure
    else
      (fatal_read env.body_read (le16At header offsetof_header_len * 4) r1.1).bind fun r2 =>
        let body := r2.2
        if body.length < offsetof_vendor_string then Res.undefined
        else
          let pixmap_formats := offsetof_vendor_string + vendor_len body
          let screens := pixmap_formats + sizeof_pixmap_format_t * num_pixmap_formats body
          Res.ret
            { r2.1 with g_state :=
                { r2.1.g_state with
                    connection_reply_header := header
                    connection_reply_success_body := body
                    pixmap_formats := pixmap_formats
                    screens := screens
                    next_resource_id := id_base body } }

/-- The bytes written to the socket by the `send_buf` calls of a list of
calls, in order. -/
def sentBytes : List Traffic → List Nat
  | [] => []
  | Traffic.send bytes :: rest => bytes ++ sentBytes rest
  | Traffic.read :: rest => sentBytes rest

/-! ## The desktop resolution -/

/-- The function `GetDesktopRes`: the world after `ensure_state` and the
values stored through `width` and `height`, the fields of
`g_state.screens[0]`.  Reading them outside the reply body is left
undefined. -/
def GetDesktopRes (env : HandshakeEnv) (w : World) : Res (World × Nat × Nat) :=
  (ensure_state env w).bind fun w1 =>
    let body := w1.g_state.connection_reply_success_body
    if body.length < w1.g_state.screens + offsetof_screen_height + 2 then Res.undefined
    else
      Res.ret (w1, le16At body (w1.g_state.screens + offsetof_screen_width),
        le16At body (w1.g_state.screens + offsetof_screen_height))

/-! ## Auxiliary facts -/

theorem length_wordsToBytes (ws : List Nat) : (wordsToBytes ws).length = 4 * ws.length := by
  induction ws with
  | nil => rfl
  | cons w ws ih => simp [wordsToBytes, le32, ih]; omega

theorem length_pixel_bytes (pixels : List Nat) (row count : Nat) :
    (pixel_bytes pixels row count).length = 4 * count := by
  simp [pixel_bytes, length_wordsToBytes]

theorem Res.bind_eq_ret {α β : Type} (r : Res α) (f : α → Res β) (b : β)
    (h : r.bind f = Res.ret b) : ∃ a, r = Res.ret a ∧ f a = Res.ret b := by
  cases r with
  | ret a => exact ⟨a, rfl, h⟩
  | fatal d => simp [Res.bind] at h
  | spin => simp [Res.bind] at h
  | starved => simp [Res.bind] at h
  | undefined => simp [Res.bind] at h

theorem Res.bind_assoc {α β γ : Type} (r : Res α) (f : α → Res β) (g : β → Res γ) :
    (r.bind f).bind g = r.bind fun a => (f a).bind g := by
  cases r <;> rfl

/-- A `send_buf` call whose first `write` takes the whole buffer returns, with
the call recorded and one `write` result used. -/
theorem send_buf_full (bytes : List Nat) (w : World) (rest : List WriteResult)
    (hw : w.write_results = fullWrite :: rest) (hlen : bytes.length ≤ 262140) :
    send_buf bytes w
      = Res.ret { w with traffic := w.traffic ++ [Traffic.send bytes], write_results := rest } := by
  have hmin : bytes.length - min 262140 bytes.length = 0 := by
    rw [Nat.min_eq_right hlen]; omega
  simp only [send_buf, hw, fullWrite, send_loop, hmin, if_true, Res.bind]

/-- A `send_buf` call that returns has recorded the call with the whole buffer,
and has left `g_state` and `g_input` alone. -/
theorem send_buf_ret (bytes : List Nat) (w w' : World) (h : send_buf bytes w = Res.ret w') :
    w'.g_state = w.g_state ∧ w'.g_input = w.g_input ∧
      w'.traffic = w.traffic ++ [Traffic.send bytes] := by
  unfold send_buf at h
  cases hl : send_loop w.write_results bytes.length with
  | ret rest =>
    rw [hl] at h
    simp only [Res.bind, Res.ret.injEq] at h
    subst h
    exact ⟨rfl, rfl, rfl⟩
  | fatal d => rw [hl] at h; simp [Res.bind] at h
  | spin => rw [hl] at h; simp [Res.bind] at h
  | starved => rw [hl] at h; simp [Res.bind] at h
  | undefined => rw [hl] at h; simp [Res.bind] at h

/-- A `send_buf` call whose first `write` fails terminates the program. -/
theorem send_buf_error (bytes : List Nat) (w : World) (rest : List WriteResult)
    (hw : w.write_results = WriteResult.error :: rest) :
    send_buf bytes w = Res.fatal Fatal.couldntSendBuf := by
  simp only [send_buf, hw, send_loop, Res.bind]

theorem blitLoop_done (win gc W H : Nat) (pixels : List Nat) (fuel y rows row : Nat)
    (h : ¬ y < H) : blitLoop win gc W H pixels fuel y rows row = Res.ret [] := by
  cases fuel <;> simp [blitLoop, h]

theorem ceil_div_succ (e r : Nat) (hr : 0 < r) :
    (e + r + r - 1) / r = (e + r - 1) / r + 1 := by
  have : e + r + r - 1 = (e + r - 1) + r := by omega
  rw [this, Nat.add_div_right _ hr]

/-- The rows of the strips, in closed form: full strips of `r` rows, then the
remaining rows if there are any.  The sum `y + r` stays within `INT_MAX` as
long as the end of the last full-size strip does. -/
theorem blitLoop_rows (win gc W H : Nat) (pixels : List Nat) (r : Nat) (hr : 0 < r) :
    ∀ (fuel d y row : Nat), y + d = H → (d + r - 1) / r ≤ fuel →
      y + (d + r - 1) / r * r ≤ INT_MAX →
      ∃ strips, blitLoop win gc W H pixels fuel y r row = Res.ret strips ∧
        strips.map Strip.num_rows_in_chunk
          = List.replicate (d / r) r ++ (if d % r = 0 then [] else [d % r]) := by
  intro fuel
  induction fuel with
  | zero =>
    intro d y row hy hf _
    have hd : d = 0 := by
      have h1 : (d + r - 1) / r = 0 := Nat.le_zero.1 hf
      have h2 := (Nat.div_eq_zero_iff hr).1 h1
      omega
    subst hd
    refine ⟨[], ?_, ?_⟩
    · exact blitLoop_done _ _ _ _ _ _ _ _ _ (by omega)
    · simp
  | succ fuel ih =>
    intro d y row hy hf hint
    by_cases hlt : y < H
    · have hov : ¬ y + r > INT_MAX := by
        have h1 : 1 ≤ (d + r - 1) / r := (Nat.one_le_div_iff hr).2 (by omega)
        have h2 : 1 * r ≤ (d + r - 1) / r * r := Nat.mul_le_mul_right r h1
        omega
      by_cases hclamp : y + r > H
      · -- the last, clamped strip
        have hdr : d < r := by omega
        have hd0 : 0 < d := by omega
        simp only [blitLoop, hlt, hov, hclamp, if_true, if_false]
        rw [blitLoop_done _ _ _ _ _ _ _ _ _ (by omega)]
        refine ⟨_, rfl, ?_⟩
        have h1 : d / r = 0 := Nat.div_eq_of_lt hdr
        have h2 : d % r = d := Nat.mod_eq_of_lt hdr
        have h3 : H - y = d := by omega
        have h4 : d ≠ 0 := by omega
        simp [Res.bind, h1, h2, h3, h4]
      · -- a full strip
        have hge : r ≤ d := by omega
        obtain ⟨e, rfl⟩ : ∃ e, d = e + r := ⟨d - r, by omega⟩
        have hc := ceil_div_succ e r hr
        have hf' : (e + r - 1) / r ≤ fuel := by omega
        have hint' : y + r + (e + r - 1) / r * r ≤ INT_MAX := by
          rw [hc, Nat.add_mul] at hint
          omega
        obtain ⟨strips, hs, hrows⟩ := ih e (y + r) (row + W * r) (by omega) hf' hint'
        simp only [blitLoop, hlt, hov, hclamp, if_true, if_false]
        rw [hs]
        refine ⟨_, rfl, ?_⟩
        simp only [List.map_cons, hrows, Nat.add_div_right _ hr, Nat.add_mod_right,
          List.replicate_succ, List.cons_append]
    · have hd : d = 0 := by omega
      subst hd
      refine ⟨[], blitLoop_done _ _ _ _ _ _ _ _ _ hlt, ?_⟩
      simp

theorem rows_per_strip_pos (W : Nat) (h1 : 1 ≤ W) (h2 : W ≤ 65535) :
    0 < MAX_BYTES_PER_REQUEST / 4 / W := by
  have : MAX_BYTES_PER_REQUEST / 4 = 65535 := by decide
  rw [this]
  exact Nat.div_pos h2 (by omega)

theorem ceil_div_eq (H r : Nat) (hr : 0 < r) :
    (H + r - 1) / r = H / r + (if H % r = 0 then 0 else 1) := by
  have hH := Nat.div_add_mod H r
  split
  · rename_i h0
    have : H + r - 1 = (r - 1) + r * (H / r) := by omega
    rw [this, Nat.add_mul_div_left _ _ hr, Nat.div_eq_of_lt (by omega)]
    omega
  · rename_i h0
    have hm := Nat.mod_lt H hr
    have : H + r - 1 = (H % r - 1) + r * (H / r + 1) := by
      rw [Nat.mul_add]; omega
    rw [this, Nat.add_mul_div_left _ _ hr, Nat.div_eq_of_lt (by omega)]
    omega

theorem lengthField_put_image_packet (win gc W rows y : Nat) :
    lengthField (put_image_packet win gc W rows y) = (W * rows + 6) % 65536 := by
  have h1 : (((W * rows + 6) % 2 ^ 32) <<< 16) % 2 ^ 32 = 2 ^ 16 * ((W * rows + 6) % 65536) := by
    rw [Nat.shiftLeft_eq]
    omega
  have h2 : X11_OPCODE_PUT_IMAGE ||| 2 <<< 8 = 584 := by decide
  simp only [lengthField, put_image_packet, List.getD_cons_zero, h1, h2]
  rw [Nat.lor_comm, ← Nat.mul_add_lt_is_or (by norm_num : 584 < 2 ^ 16)]
  omega

/-- What every strip of the loop of `BlitBitmapToWindow` looks like: its packet
is the put-image packet for its `y` and row count, and its payload has four
bytes for each of its `W * num_rows_in_chunk` pixels. -/
theorem blitLoop_strip_shape (win gc W H : Nat) (pixels : List Nat) :
    ∀ (fuel y rows row : Nat) (strips : List Strip),
      blitLoop win gc W H pixels fuel y rows row = Res.ret strips →
      ∀ s ∈ strips,
        s.packet = put_image_packet win gc W s.num_rows_in_chunk s.y ∧
        s.payload.length = 4 * (W * s.num_rows_in_chunk) ∧
        s.num_rows_in_chunk ≤ rows := by
  intro fuel
  induction fuel with
  | zero =>
    intro y rows row strips h s hs
    by_cases hlt : y < H
    · simp [blitLoop, hlt] at h
    · simp [blitLoop, hlt] at h
      subst h
      simp at hs
  | succ fuel ih =>
    intro y rows row strips h s hs
    by_cases hlt : y < H
    · by_cases hov : y + rows > INT_MAX
      · simp [blitLoop, hlt, hov] at h
      simp only [blitLoop, hlt, hov, if_true, if_false] at h
      generalize hrows : (if y + rows > H then H - y else rows) = rows' at h
      have hle : rows' ≤ rows := by
        rw [← hrows]; split <;> omega
      cases hrec : blitLoop win gc W H pixels fuel (y + rows') rows' (row + W * rows') with
      | ret rest =>
        rw [hrec] at h
        simp only [Res.bind, Res.ret.injEq] at h
        subst h
        rcases List.mem_cons.1 hs with h1 | h1
        · subst h1
          exact ⟨rfl, length_pixel_bytes _ _ _, hle⟩
        · obtain ⟨a, b, c⟩ := ih _ _ _ _ hrec s h1
          exact ⟨a, b, le_trans c hle⟩
      | fatal d => rw [hrec] at h; simp [Res.bind] at h
      | spin => rw [hrec] at h; simp [Res.bind] at h
      | starved => rw [hrec] at h; simp [Res.bind] at h
      | undefined => rw [hrec] at h; simp [Res.bind] at h
    · rw [blitLoop_done _ _ _ _ _ _ _ _ _ hlt] at h
      simp only [Res.ret.injEq] at h
      subst h
      simp at hs

/-- C4 (the code at the failing input). For a bitmap 257 pixels wide and 255
rows high `BlitBitmapToWindow` emits a single strip of 255 rows, and the
put-image request for it takes 262164 bytes, header and pixels together: 24
bytes more than `MAX_BYTES_PER_REQUEST`. -/
theorem C4_strip_exceeds_budget (window_id graphics_context_id : Nat) (pixels : List Nat) :
    ∃ s, blitStrips 1 window_id graphics_context_id 257 255 pixels = Res.ret [s] ∧
      s.num_rows_in_chunk = 255 ∧
      s.bytesSent = 262164 ∧
      ¬ s.bytesSent ≤ MAX_BYTES_PER_REQUEST := by
  have h : blitStrips 1 window_id graphics_context_id 257 255 pixels
      = Res.ret [{ y := 0, num_rows_in_chunk := 255,
                   packet := put_image_packet window_id graphics_context_id 257 255 0,
                   payload := pixel_bytes pixels 0 (257 * 255) }] := by
    simp only [blitStrips, blitLoop, MAX_BYTES_PER_REQUEST, INT_MAX, Res.bind]
    simp
  have hb : Strip.bytesSent
      { y := 0, num_rows_in_chunk := 255,
        packet := put_image_packet window_id graphics_context_id 257 255 0,
        payload := pixel_bytes pixels 0 (257 * 255) } = 262164 := by
    simp only [Strip.bytesSent]
    rw [length_wordsToBytes, length_pixel_bytes]
    have h6 : (put_image_packet window_id graphics_context_id 257 255 0).length = 6 := rfl
    rw [h6]
  refine ⟨_, h, rfl, hb, ?_⟩
  rw [hb]
  decide

/-! ### The strips of the bitmap -/

/-- The fields of a packet of six words that the theorems read off its bytes:
the first byte, the 16 bit halves of the first, fourth and fifth word. -/
theorem wordsToBytes_fields (w0 w1 w2 w3 w4 w5 : Nat) :
    byteAt (wordsToBytes [w0, w1, w2, w3, w4, w5]) 0 = w0 % 256 ∧
    le16At (wordsToBytes [w0, w1, w2, w3, w4, w5]) 2 = w0 / 65536 % 65536 ∧
    le16At (wordsToBytes [w0, w1, w2, w3, w4, w5]) 12 = w3 % 65536 ∧
    le16At (wordsToBytes [w0, w1, w2, w3, w4, w5]) 14 = w3 / 65536 % 65536 ∧
    le16At (wordsToBytes [w0, w1, w2, w3, w4, w5]) 16 = w4 % 65536 ∧
    le16At (wordsToBytes [w0, w1, w2, w3, w4, w5]) 18 = w4 / 65536 % 65536 := by
  refine ⟨?_, ?_, ?_, ?_, ?_, ?_⟩ <;>
    simp only [wordsToBytes, le32, byteAt, le16At, List.cons_append, List.nil_append,
      List.getD_cons_succ, List.getD_cons_zero] <;> omega

/-- The bytes of a put-image packet on the wire, for a width and a row count
that fit 16 bits: 24 bytes, the opcode 72 first, the 16 bit length field at
offset 2, the width at offset 12 and the height, the row count, at offset
14. -/
theorem put_image_packet_wire (win gc W rows y : Nat) (hW : W ≤ 65535) (hrows : rows ≤ 65535) :
    (wordsToBytes (put_image_packet win gc W rows y)).length = 24 ∧
    byteAt (wordsToBytes (put_image_packet win gc W rows y)) 0 = 72 ∧
    le16At (wordsToBytes (put_image_packet win gc W rows y)) 2 = (W * rows + 6) % 65536 ∧
    le16At (wordsToBytes (put_image_packet win gc W rows y)) 12 = W ∧
    le16At (wordsToBytes (put_image_packet win gc W rows y)) 14 = rows := by
  have h1 : (((W * rows + 6) % 2 ^ 32) <<< 16) % 2 ^ 32 = 2 ^ 16 * ((W * rows + 6) % 65536) := by
    rw [Nat.shiftLeft_eq]
    omega
  have h2 : X11_OPCODE_PUT_IMAGE ||| 2 <<< 8 = 584 := by decide
  have hw0 : X11_OPCODE_PUT_IMAGE ||| 2 <<< 8 ||| (((W * rows + 6) % 2 ^ 32) <<< 16) % 2 ^ 32
      = 2 ^ 16 * ((W * rows + 6) % 65536) + 584 := by
    rw [h1, h2, Nat.lor_comm, ← Nat.mul_add_lt_is_or (by norm_num : 584 < 2 ^ 16)]
  have hw3 : (W ||| (rows <<< 16)) % 2 ^ 32 = 2 ^ 16 * rows + W := by
    have h : W ||| (rows <<< 16) = 2 ^ 16 * rows + W := by
      rw [Nat.shiftLeft_eq, Nat.lor_comm, Nat.mul_comm,
        ← Nat.mul_add_lt_is_or (by omega : W < 2 ^ 16)]
    rw [h]
    omega
  have h6 : (put_image_packet win gc W rows y).length = 6 := rfl
  have hp : put_image_packet win gc W rows y
      = [X11_OPCODE_PUT_IMAGE ||| 2 <<< 8 ||| (((W * rows + 6) % 2 ^ 32) <<< 16) % 2 ^ 32,
         win, gc, (W ||| (rows <<< 16)) % 2 ^ 32, (0 ||| (y <<< 16)) % 2 ^ 32, 24 <<< 8] := rfl
  obtain ⟨f0, f2, f12, f14, _, _⟩ := wordsToBytes_fields
    (X11_OPCODE_PUT_IMAGE ||| 2 <<< 8 ||| (((W * rows + 6) % 2 ^ 32) <<< 16) % 2 ^ 32)
    win gc ((W ||| (rows <<< 16)) % 2 ^ 32) ((0 ||| (y <<< 16)) % 2 ^ 32) (24 <<< 8)
  rw [← hp] at f0 f2 f12 f14
  rw [hw0] at f0 f2
  rw [hw3] at f12 f14
  refine ⟨by rw [length_wordsToBytes, h6], ?_, ?_, ?_, ?_⟩
  · rw [f0]; omega
  · rw [f2]; omega
  · rw [f12]; omega
  · rw [f14]; omega

/-- The loop of `BlitBitmapToWindow` sends the strips that `blitLoop` lists, in
order. -/
theorem blitSend_eq_sendStrips (W H : Nat) (pixels : List Nat) :
    ∀ (fuel y rows row : Nat) (w : World) (strips : List Strip),
      blitLoop w.g_state.window_id w.g_state.graphics_context_id W H pixels fuel y rows row
        = Res.ret strips →
      blitSend W H pixels fuel y rows row w = sendStrips strips w := by
  intro fuel
  induction fuel with
  | zero =>
    intro y rows row w strips h
    by_cases hlt : y < H
    · simp [blitLoop, hlt] at h
    · simp [blitLoop, hlt] at h
      subst h
      simp [blitSend, hlt, sendStrips]
  | succ fuel ih =>
    intro y rows row w strips h
    by_cases hlt : y < H
    · by_cases hov : y + rows > INT_MAX
      · simp [blitLoop, hlt, hov] at h
      simp only [blitLoop, hlt, hov, if_true, if_false] at h
      simp only [blitSend, hlt, hov, if_true, if_false]
      generalize (if y + rows > H then H - y else rows) = rows' at h ⊢
      obtain ⟨rest, hrec, hcons⟩ := Res.bind_eq_ret _ _ _ h
      simp only [Res.ret.injEq] at hcons
      subst hcons
      simp only [sendStrips, sendStrip, Res.bind_assoc]
      cases hs1 : send_buf (wordsToBytes
          (put_image_packet w.g_state.window_id w.g_state.graphics_context_id W rows' y)) w with
      | ret w1 =>
        obtain ⟨hg1, _, _⟩ := send_buf_ret _ _ _ hs1
        simp only [Res.bind]
        cases hs2 : send_buf (pixel_bytes pixels row (W * rows')) w1 with
        | ret w2 =>
          obtain ⟨hg2, _, _⟩ := send_buf_ret _ _ _ hs2
          simp only [Res.bind]
          apply ih
          rw [hg2, hg1]
          exact hrec
        | fatal d => rfl
        | spin => rfl
        | starved => rfl
        | undefined => rfl
      | fatal d => rfl
      | spin => rfl
      | starved => rfl
      | undefined => rfl
    · rw [blitLoop_done _ _ _ _ _ _ _ _ _ hlt] at h
      simp only [Res.ret.injEq] at h
      subst h
      cases fuel <;> simp [blitSend, hlt, sendStrips]

/-- When every `write` takes all it is given, the `send_buf` calls of a list of
strips all return: two calls for each strip, each using one `write`. -/
theorem sendStrips_full :
    ∀ (strips : List Strip) (w : World) (more : List WriteResult),
      (∀ s ∈ strips, (wordsToBytes s.packet).length ≤ 262140 ∧ s.payload.length ≤ 262140) →
      w.write_results = List.replicate (2 * strips.length) fullWrite ++ more →
      sendStrips strips w
        = Res.ret
            { w with
                traffic := w.traffic ++ (strips.map fun s =>
                  [Traffic.send (wordsToBytes s.packet), Traffic.send s.payload]).flatten
                write_results := more } := by
  intro strips
  induction strips with
  | nil =>
    intro w more _ hw
    simp only [List.length_nil, Nat.mul_zero, List.replicate_zero, List.nil_append] at hw
    simp only [sendStrips, List.map_nil, List.flatten_nil, List.append_nil, ← hw]
  | cons s rest ih =>
    intro w more hlen hw
    have h2 : 2 * (s :: rest).length = 2 * rest.length + 1 + 1 := by
      simp only [List.length_cons]; omega
    rw [h2, List.replicate_succ, List.replicate_succ, List.cons_append, List.cons_append] at hw
    obtain ⟨hl1, hl2⟩ := hlen s (List.mem_cons_self _ _)
    simp only [sendStrips, sendStrip]
    rw [send_buf_full _ w _ hw hl1]
    simp only [Res.bind]
    rw [send_buf_full _ _ _ rfl hl2]
    simp only [Res.bind]
    rw [ih _ more (fun t ht => hlen t (List.mem_cons_of_mem _ ht)) rfl]
    simp

/-- The run of `BlitBitmapToWindow` for a width in 1..65535 when the sum
`y + num_rows_in_chunk` stays within `INT_MAX` and every `write` takes all it
is given: the strips of the loop, their row counts in closed form, and the
world in which the function returns. -/
theorem BlitBitmapToWindow_sends (fuel W H : Nat) (pixels : List Nat) (w : World)
    (more : List WriteResult) (hW1 : 1 ≤ W) (hW2 : W ≤ 65535)
    (hint : (H + 262140 / 4 / W - 1) / (262140 / 4 / W) * (262140 / 4 / W) ≤ INT_MAX)
    (hfuel : (H + 262140 / 4 / W - 1) / (262140 / 4 / W) ≤ fuel)
    (hwrites : w.write_results
      = List.replicate (2 * ((H + 262140 / 4 / W - 1) / (262140 / 4 / W))) fullWrite ++ more) :
    ∃ strips,
      blitLoop w.g_state.window_id w.g_state.graphics_context_id W H pixels fuel 0
        (262140 / 4 / W) 0 = Res.ret strips ∧
      blitStrips fuel w.g_state.window_id w.g_state.graphics_context_id W H pixels
        = Res.ret strips ∧
      strips.map Strip.num_rows_in_chunk
        = List.replicate (H / (262140 / 4 / W)) (262140 / 4 / W)
          ++ (if H % (262140 / 4 / W) = 0 then [] else [H % (262140 / 4 / W)]) ∧
      strips.length = (H + 262140 / 4 / W - 1) / (262140 / 4 / W) ∧
      BlitBitmapToWindow fuel W H pixels w
        = Res.ret
            { w with
                traffic := w.traffic ++ (strips.map fun s =>
                  [Traffic.send (wordsToBytes s.packet), Traffic.send s.payload]).flatten
                write_results := more } := by
  have hr : 0 < 262140 / 4 / W := rows_per_strip_pos W hW1 hW2
  have hrle : 262140 / 4 / W ≤ 65535 := Nat.div_le_self _ _
  have hWr : W * (262140 / 4 / W) ≤ 65535 := Nat.mul_div_le _ _
  obtain ⟨strips, hs, hrows⟩ :=
    blitLoop_rows w.g_state.window_id w.g_state.graphics_context_id W H pixels
      (262140 / 4 / W) hr fuel H 0 0 (by omega) hfuel (by omega)
  have hlen : strips.length = (H + 262140 / 4 / W - 1) / (262140 / 4 / W) := by
    have := congrArg List.length hrows
    rw [List.length_map] at this
    rw [this, ceil_div_eq H _ hr]
    split <;> simp
  have hret : blitStrips fuel w.g_state.window_id w.g_state.graphics_context_id W H pixels
      = Res.ret strips := by
    unfold blitStrips
    rw [if_neg (by omega)]
    exact hs
  refine ⟨strips, hs, hret, hrows, hlen, ?_⟩
  unfold BlitBitmapToWindow
  rw [if_neg (by omega)]
  have h1 : MAX_BYTES_PER_REQUEST / 4 / W = 262140 / 4 / W := rfl
  rw [h1, blitSend_eq_sendStrips W H pixels fuel 0 _ 0 w strips hs]
  apply sendStrips_full
  · intro s hmem
    obtain ⟨hp, hl, hle⟩ := blitLoop_strip_shape _ _ W H pixels fuel 0 _ 0 strips hs s hmem
    have hmul : W * s.num_rows_in_chunk ≤ W * (262140 / 4 / W) := Nat.mul_le_mul_left W hle
    rw [hl, hp, length_wordsToBytes]
    simp only [put_image_packet, List.length_cons, List.length_nil]
    omega
  · rw [hlen]
    exact hwrites

/-- C5 (the code at the failing input). For a bitmap 257 pixels wide and 255
rows high, with every `write` taking all it is given, `BlitBitmapToWindow`
sends one put-image request: a 24 byte packet and a payload, 262164 bytes
together.  The 16 bit length field in the upper half of the first header word
holds 5, the low 16 bits of the 65541 words of the request, so four times the
field is 20 and not the number of bytes sent. -/
theorem C5_length_field_wraps (pixels : List Nat) (w : World) (more : List WriteResult)
    (hwrites : w.write_results = fullWrite :: fullWrite :: more) :
    ∃ w' header payload,
      BlitBitmapToWindow 1 257 255 pixels w = Res.ret w' ∧
      w'.traffic = w.traffic ++ [Traffic.send header, Traffic.send payload] ∧
      byteAt header 0 = 72 ∧
      le16At header 2 = 5 ∧
      header.length = 24 ∧
      payload.length = 262140 ∧
      4 * le16At header 2 ≠ header.length + payload.length := by
  obtain ⟨strips, hs, _, hrows, hlen, hblit⟩ :=
    BlitBitmapToWindow_sends 1 257 255 pixels w more (by decide) (by decide) (by decide)
      (by decide) hwrites
  have hshape := blitLoop_strip_shape _ _ 257 255 pixels 1 0 _ 0 strips hs
  have hlen1 : strips.length = 1 := hlen
  obtain ⟨s, rfl⟩ := List.length_eq_one.1 hlen1
  have hn : s.num_rows_in_chunk = 255 := by
    have h := hrows
    have h2 : List.replicate (255 / (262140 / 4 / 257)) (262140 / 4 / 257)
        ++ (if 255 % (262140 / 4 / 257) = 0 then [] else [255 % (262140 / 4 / 257)])
        = [255] := by decide
    rw [h2, List.map_cons, List.map_nil] at h
    exact List.head_eq_of_cons_eq h
  obtain ⟨hp, hl, _⟩ := hshape s (List.mem_singleton_self s)
  rw [hn] at hp hl
  obtain ⟨w1, w2, w3, _, _⟩ :=
    put_image_packet_wire w.g_state.window_id w.g_state.graphics_context_id 257 255 s.y
      (by decide) (by decide)
  rw [← hp] at w1 w2 w3
  have h5 : (257 * 255 + 6) % 65536 = 5 := by decide
  rw [h5] at w3
  have hpay : s.payload.length = 262140 := by rw [hl]
  refine ⟨_, wordsToBytes s.packet, s.payload, hblit, ?_, w2, w3, w1, hpay, ?_⟩
  · simp
  · rw [w3, w1, hpay]
    decide

/-- Witness of C5: the bitmap of 257 by 255 pixels sent after the sample
handshake. -/
theorem C5_length_field_wraps_witness :
    ∃ w' header payload,
      BlitBitmapToWindow 1 257 255 [] (handshakenWorld 0 0 64 4) = Res.ret w' ∧
      w'.traffic
        = (handshakenWorld 0 0 64 4).traffic ++ [Traffic.send header, Traffic.send payload] ∧
      byteAt header 0 = 72 ∧
      le16At header 2 = 5 ∧
      header.length = 24 ∧
      payload.length = 262140 ∧
      4 * le16At header 2 ≠ header.length + payload.length :=
  C5_length_field_wraps [] (handshakenWorld 0 0 64 4) (List.replicate 30 fullWrite) rfl

/-- A `fatal_read` that returns has read `count` bytes in one call. -/
theorem fatal_read_ret (r : Option (List Nat)) (count : Nat) (w : World)
    (x : World × List Nat) (h : fatal_read r count w = Res.ret x) :
    r = some x.2 ∧ x.2.length = count ∧
      x.1 = { w with traffic := w.traffic ++ [Traffic.read] } := by
  cases r with
  | none => simp [fatal_read] at h
  | some bytes =>
    by_cases hc : bytes.length = count
    · simp only [fatal_read, hc, if_true, Res.ret.injEq] at h
      subst h
      exact ⟨rfl, hc, rfl⟩
    · simp [fatal_read, hc] at h

/-- What a handshake that returns has done: the three sends and two reads, and
the fields of `g_state` it has set from the reply. -/
theorem ensure_state_ret (env : HandshakeEnv) (w w' : World)
    (hfd : w.g_state.socket_fd < 0) (h : ensure_state env w = Res.ret w') :
    ∃ file header body,
      env.xauth_file = some file ∧ env.header_read = some header ∧
      env.body_read = some body ∧
      w'.g_state =
        { w.g_state with
            socket_fd := env.socket_result
            connection_reply_header := header
            connection_reply_success_body := body
            pixmap_formats := offsetof_vendor_string + vendor_len body
            screens := offsetof_vendor_string + vendor_len body
              + sizeof_pixmap_format_t * num_pixmap_formats body
            next_resource_id := id_base body } ∧
      w'.g_input = w.g_input ∧
      w'.traffic = w.traffic ++
        [Traffic.send connection_request, Traffic.send auth_proto_name,
         Traffic.send (((file.take 4096).drop ((file.take 4096).length - 16)).take 16),
         Traffic.read, Traffic.read] := by
  have hfd' : ¬ w.g_state.socket_fd ≥ 0 := by omega
  unfold ensure_state at h
  rw [if_neg hfd'] at h
  by_cases h1 : env.socket_result < 0
  · rw [if_pos h1] at h; cases h
  rw [if_neg h1] at h
  by_cases h2 : env.connect_result < 0
  · rw [if_pos h2] at h; cases h
  rw [if_neg h2] at h
  cases hx : env.xauth_file with
  | none => rw [hx] at h; cases h
  | some file =>
    rw [hx] at h
    dsimp only at h
    by_cases h3 : (file.take 4096).length < 16
    · rw [if_pos h3] at h; cases h
    rw [if_neg h3] at h
    obtain ⟨w2, hs2, h⟩ := Res.bind_eq_ret _ _ _ h
    obtain ⟨w3, hs3, h⟩ := Res.bind_eq_ret _ _ _ h
    obtain ⟨w4, hs4, h⟩ := Res.bind_eq_ret _ _ _ h
    obtain ⟨hg2, hi2, ht2⟩ := send_buf_ret _ _ _ hs2
    obtain ⟨hg3, hi3, ht3⟩ := send_buf_ret _ _ _ hs3
    obtain ⟨hg4, hi4, ht4⟩ := send_buf_ret _ _ _ hs4
    rw [hg3, hg2] at hg4
    rw [hi3, hi2] at hi4
    rw [ht3, ht2] at ht4
    obtain ⟨r1, hr1, h⟩ := Res.bind_eq_ret _ _ _ h
    obtain ⟨hh, _, hw1⟩ := fatal_read_ret _ _ _ _ hr1
    by_cases h5 : byteAt r1.2 0 % 256 = 0
    · rw [if_pos h5] at h; cases h
    rw [if_neg h5] at h
    obtain ⟨r2, hr2, h⟩ := Res.bind_eq_ret _ _ _ h
    obtain ⟨hb, _, hw2⟩ := fatal_read_ret _ _ _ _ hr2
    by_cases h7 : r2.2.length < offsetof_vendor_string
    · rw [if_pos h7] at h; cases h
    rw [if_neg h7] at h
    simp only [Res.ret.injEq] at h
    subst h
    refine ⟨file, r1.2, r2.2, rfl, hh, hb, ?_, ?_, ?_⟩
    · simp [hw2, hw1, hg4]
    · simp [hw2, hw1, hi4]
    · simp [hw2, hw1, ht4]

theorem id_base_lt (body : List Nat) : id_base body < 2 ^ 32 := by
  simp only [id_base, le32At]
  omega

theorem generate_ids_eq (n : Nat) :
    ∀ w : World, w.g_state.next_resource_id < 2 ^ 32 →
      (generate_ids n w).1
        = (List.range n).map fun i => (w.g_state.next_resource_id + i) % 2 ^ 32 := by
  induction n with
  | zero => intro w _; rfl
  | succ n ih =>
    intro w hlt
    have hnext : (generate_id w).2.g_state.next_resource_id
        = (w.g_state.next_resource_id + 1) % 2 ^ 32 := rfl
    have h := ih (generate_id w).2 (by rw [hnext]; omega)
    simp only [generate_ids, h, List.range_succ_eq_map, List.map_cons, List.map_map]
    refine congrArg₂ _ ?_ ?_
    · simp only [generate_id]
      omega
    · apply List.map_congr_left
      intro i _
      simp only [Function.comp, hnext]
      omega

theorem pairwise_lt_map_add (b n : Nat) :
    ((List.range n).map fun i => b + i).Pairwise (· < ·) := by
  rw [List.pairwise_map]
  exact (List.pairwise_lt_range n).imp (by intro i j h; omega)

/-- C7 (as amended). Resource id allocation: after a handshake whose reply
declares id-base `b`, calling `generate_id` `n ≥ 1` times yields
`(b + i) mod 2^32` for `i = 0, …, n-1` in that order; when `b + n ≤ 2^32`
these are `b, b+1, …, b+n-1` and the sequence is strictly increasing. -/
theorem C7_resource_ids (env : HandshakeEnv) (w w' : World) (n : Nat)
    (hfd : w.g_state.socket_fd < 0) (h : ensure_state env w = Res.ret w') (_hn : 1 ≤ n) :
    ∃ body, env.body_read = some body ∧
      (generate_ids n w').1 = ((List.range n).map fun i => (id_base body + i) % 2 ^ 32) ∧
      (id_base body + n ≤ 2 ^ 32 →
        (generate_ids n w').1 = ((List.range n).map fun i => id_base body + i) ∧
        (generate_ids n w').1.Pairwise (· < ·)) := by
  obtain ⟨file, header, body, _, _, hb, hst, _, _⟩ := ensure_state_ret env w w' hfd h
  have hnext : w'.g_state.next_resource_id = id_base body := by rw [hst]
  have hids := generate_ids_eq n w' (by rw [hnext]; exact id_base_lt body)
  rw [hnext] at hids
  refine ⟨body, hb, hids, ?_⟩
  intro hle
  have heq : (generate_ids n w').1 = ((List.range n).map fun i => id_base body + i) := by
    rw [hids]
    apply List.map_congr_left
    intro i hi
    have := List.mem_range.1 hi
    exact Nat.mod_eq_of_lt (by omega)
  exact ⟨heq, heq ▸ pairwise_lt_map_add _ _⟩

/-- Witness of C7: three ids after a handshake with id-base 0x04400000. -/
theorem C7_resource_ids_witness :
    ∃ body, (sampleHandshake (sampleBody 0 0 64 4)).body_read = some body ∧
      (generate_ids 3 (handshakenWorld 0 0 64 4)).1
        = ((List.range 3).map fun i => (id_base body + i) % 2 ^ 32) ∧
      (id_base body + 3 ≤ 2 ^ 32 →
        (generate_ids 3 (handshakenWorld 0 0 64 4)).1
          = ((List.range 3).map fun i => id_base body + i) ∧
        (generate_ids 3 (handshakenWorld 0 0 64 4)).1.Pairwise (· < ·)) :=
  C7_resource_ids (sampleHandshake (sampleBody 0 0 64 4)) initialWorld _ 3
    (by decide) rfl (by decide)

/-- C7 (counterexample). After a handshake that declares id-base `2^32 - 1`,
two calls of `generate_id` yield 4294967295 and then 0: not `b, b+1`, and not
increasing. -/
theorem C7_counterexample :
    ∃ w', ensure_state (sampleHandshake (sampleBody 255 255 255 255)) initialWorld = Res.ret w' ∧
      id_base (sampleBody 255 255 255 255) = 4294967295 ∧
      (generate_ids 2 w').1 = [4294967295, 0] ∧
      (generate_ids 2 w').1 ≠ [4294967295, 4294967295 + 1] ∧
      ¬ (generate_ids 2 w').1.Pairwise (· < ·) :=
  ⟨_, rfl, by decide, rfl, by decide, by decide⟩

/-- C8. Handshake table offsets: after a handshake that returns, with `v` the
vendor-string length and `f` the pixmap-format count of the reply body, the
pixmap-format array starts at byte offset `32 + v` of the body (the end of the
vendor string, which starts at offset 32) and the screen array at
`32 + v + 8 * f` (a format record is 8 bytes): functions of `v` and `f`
alone. -/
theorem C8_handshake_offsets (env : HandshakeEnv) (w w' : World)
    (hfd : w.g_state.socket_fd < 0) (h : ensure_state env w = Res.ret w') :
    env.body_read = some w'.g_state.connection_reply_success_body ∧
    offsetof_vendor_string = 32 ∧ sizeof_pixmap_format_t = 8 ∧
    w'.g_state.pixmap_formats
      = 32 + vendor_len w'.g_state.connection_reply_success_body ∧
    w'.g_state.screens
      = 32 + vendor_len w'.g_state.connection_reply_success_body
        + 8 * num_pixmap_formats w'.g_state.connection_reply_success_body := by
  obtain ⟨file, header, body, _, _, hb, hst, _, _⟩ := ensure_state_ret env w w' hfd h
  rw [hst]
  exact ⟨hb, rfl, rfl, rfl, rfl⟩

/-- Witness of C8: the handshake with the sample reply body (`v = 4`,
`f = 1`). -/
theorem C8_handshake_offsets_witness :
    (sampleHandshake (sampleBody 0 0 64 4)).body_read
      = some (handshakenWorld 0 0 64 4).g_state.connection_reply_success_body ∧
    offsetof_vendor_string = 32 ∧ sizeof_pixmap_format_t = 8 ∧
    (handshakenWorld 0 0 64 4).g_state.pixmap_formats
      = 32 + vendor_len (handshakenWorld 0 0 64 4).g_state.connection_reply_success_body ∧
    (handshakenWorld 0 0 64 4).g_state.screens
      = 32 + vendor_len (handshakenWorld 0 0 64 4).g_state.connection_reply_success_body
        + 8 * num_pixmap_formats (handshakenWorld 0 0 64 4).g_state.connection_reply_success_body :=
  C8_handshake_offsets (sampleHandshake (sampleBody 0 0 64 4)) initialWorld _ (by decide) rfl

theorem decodeByte_fold (K : KeyConstants) (i : Nat) :
    ∀ (n : Nat) (ks : Int → Int) (b : Nat), b < 256 →
      (List.range n).foldl
        (fun (acc : (Int → Int) × Nat) j =>
          (Function.update acc.1 (ConvertX11Keycode K ((i * 8 + j : Nat) : Int))
              (((acc.2 &&& 1 : Nat) : Int)), (acc.2 >>> 1) % 256))
        (ks, b)
      = ((List.range n).foldl
          (fun ks j =>
            Function.update ks (ConvertX11Keycode K ((i * 8 + j : Nat) : Int))
              (((b / 2 ^ j % 2 : Nat) : Int)))
          ks, b / 2 ^ n) := by
  intro n
  induction n with
  | zero => intro ks b _; simp
  | succ n ih =>
    intro ks b hb
    rw [List.range_succ, List.foldl_append, List.foldl_append, ih ks b hb]
    have h1 : b / 2 ^ n &&& 1 = b / 2 ^ n % 2 := Nat.and_one_is_mod _
    have h2 : ((b / 2 ^ n) >>> 1) % 256 = b / 2 ^ (n + 1) := by
      rw [Nat.shiftRight_eq_div_pow, Nat.div_div_eq_div_mul, ← pow_succ]
      apply Nat.mod_eq_of_lt
      exact lt_of_le_of_lt (Nat.div_le_self _ _) hb
    simp only [List.foldl_cons, List.foldl_nil, h1, h2]

/-- The decode loop of `InputPoll` writes, for the keycodes 0 to 255 in
increasing order, the bit of the keycode to the entry of its engine key. -/
theorem decodeKeymap_flat (K : KeyConstants) (resp : List Nat) (keys : Int → Int) :
    ∀ n, (List.range n).foldl
        (fun ks i => (decodeByte K i (ks, byteAt resp (8 + i) % 256)).1) keys
      = (List.range (8 * n)).foldl
          (fun ks k => Function.update ks (ConvertX11Keycode K ((k : Nat) : Int))
            ((keymapBit resp k : Nat) : Int)) keys := by
  intro n
  induction n with
  | zero => simp
  | succ n ih =>
    rw [List.range_succ, List.foldl_append, ih]
    have h8 : 8 * (n + 1) = 8 * n + 8 := by ring
    rw [h8, List.range_add, List.foldl_append, List.foldl_map]
    simp only [List.foldl_cons, List.foldl_nil, decodeByte]
    rw [decodeByte_fold K n 8 _ _ (Nat.mod_lt _ (by norm_num))]
    apply List.foldl_ext
    intro ks j hj
    have hj8 : j < 8 := List.mem_range.1 hj
    have e1 : n * 8 + j = 8 * n + j := by ring
    have e2 : (8 * n + j) / 8 = n := by omega
    have e3 : (8 * n + j) % 8 = j := by omega
    simp only [keymapBit, e1, e2, e3]

theorem foldl_update_last {α : Type} (key : Nat → Int) (val : Nat → α) (init : Int → α) :
    ∀ (n k : Nat), k < n → (∀ k', k < k' → k' < n → key k' ≠ key k) →
      (List.range n).foldl (fun f x => Function.update f (key x) (val x)) init (key k)
        = val k := by
  intro n
  induction n with
  | zero => intro k hk; omega
  | succ n ih =>
    intro k hk hlast
    rw [List.range_succ, List.foldl_append]
    simp only [List.foldl_cons, List.foldl_nil]
    by_cases hkn : k = n
    · subst hkn
      exact Function.update_same _ _ _
    · have hne : key k ≠ key n := fun h => hlast n (by omega) (by omega) h.symm
      rw [Function.update_noteq hne]
      exact ih k (by omega) (fun k' h1 h2 => hlast k' h1 (by omega))

/-- After the decode loop of `InputPoll` the entry of the engine key of a
keycode `k` holds the bit of `k` in the reply, whatever it held before,
provided that no larger keycode in 0..255 is mapped to the same engine key. -/
theorem decodeKeymap_last_keycode (K : KeyConstants) (resp : List Nat) (keys : Int → Int)
    (k : Nat) (hk : k < 256)
    (hlast : ∀ k', k < k' → k' < 256 →
      ConvertX11Keycode K ((k' : Nat) : Int) ≠ ConvertX11Keycode K ((k : Nat) : Int)) :
    decodeKeymap K resp keys (ConvertX11Keycode K ((k : Nat) : Int))
      = ((keymapBit resp k : Nat) : Int) := by
  unfold decodeKeymap
  rw [decodeKeymap_flat K resp keys 32]
  exact foldl_update_last (fun x => ConvertX11Keycode K ((x : Nat) : Int))
    (fun x => ((keymapBit resp x : Nat) : Int)) keys (8 * 32) k hk hlast

/-! ### The receive buffer -/

theorem toSizeT_natCast (n : Nat) (h : n < 2 ^ 64) : toSizeT (n : Int) = n := by
  unfold toSizeT
  have : ((n : Int) % 2 ^ 64) = (n : Int) := Int.emod_eq_of_lt (by omega) (by exact_mod_cast h)
  rw [this]
  simp

theorem Holds.prefix_eq {w : World} {valid : List Nat} (h : Holds w valid) :
    ∃ stale, w.g_state.recv_buf = valid ++ stale := by
  refine ⟨w.g_state.recv_buf.drop valid.length, ?_⟩
  conv_lhs => rw [← List.take_append_drop valid.length w.g_state.recv_buf]
  rw [h.2]

theorem Holds.byteAt_eq {w : World} {valid : List Nat} (h : Holds w valid) (i : Nat)
    (hi : i < valid.length) : byteAt w.g_state.recv_buf i = byteAt valid i := by
  obtain ⟨stale, hs⟩ := h.prefix_eq
  rw [hs]
  simp [byteAt, List.getD_eq_getElem?_getD, List.getElem?_append_left hi]

/-- `ConsumeMessage` on a buffer holding `a ++ b` with `len = a.length`: the
buffer then holds `b`, and nothing else changes. -/
theorem ConsumeMessage_holds (w : World) (a b : List Nat) (h : Holds w (a ++ b))
    (hsize : (a ++ b).length ≤ 10000) :
    ∃ w', ConsumeMessage (a.length : Int) w = Res.ret w' ∧ Holds w' b ∧
      w'.g_input = w.g_input ∧ w'.traffic = w.traffic ∧
      w'.g_state.next_resource_id = w.g_state.next_resource_id := by
  obtain ⟨stale, hs⟩ := h.prefix_eq
  have hn : w.g_state.recv_buf_num_bytes = ((a.length + b.length : Nat) : Int) := by
    rw [h.1, List.length_append]
  have hsub : w.g_state.recv_buf_num_bytes - (a.length : Int) = (b.length : Int) := by
    rw [hn]; push_cast; ring
  have hlen : (a ++ b).length = a.length + b.length := List.length_append _ _
  unfold ConsumeMessage
  simp only [hsub]
  rw [if_neg (by omega)]
  have hsz : ¬ toSizeT (b.length : Int) > RECV_BUF_SIZE := by
    rw [toSizeT_natCast _ (by omega)]
    simp only [RECV_BUF_SIZE]; omega
  rw [if_neg hsz]
  refine ⟨_, rfl, ⟨rfl, ?_⟩, rfl, rfl, rfl⟩
  simp only [Int.toNat_ofNat, hs, memWrite]
  rw [List.append_assoc, List.drop_left, List.take_left]
  simp

theorem ConvertX11Keycode_neg (K : KeyConstants) (x : Int) (h : x < 0) :
    ConvertX11Keycode K x = 0 := by
  obtain ⟨n, rfl⟩ := Int.eq_negSucc_of_lt_zero h
  rfl

theorem ConvertX11Keycode_above (K : KeyConstants) (n : Nat) :
    ConvertX11Keycode K ((n + 128 : Nat) : Int) = 0 := by
  rfl

theorem ConvertX11Keycode_out_of_range (K : KeyConstants) (x : Int) (h : x < 0 ∨ 127 < x) :
    ConvertX11Keycode K x = 0 := by
  rcases h with h | h
  · exact ConvertX11Keycode_neg K x h
  · obtain ⟨n, rfl⟩ : ∃ n : Nat, x = ((n + 128 : Nat) : Int) :=
      ⟨(x - 128).toNat, by push_cast; omega⟩
    exact ConvertX11Keycode_above K n

/-- Reading the keycode byte through a signed `char` does not change the
result of `ConvertX11Keycode`: no keycode above 127 is in the table. -/
theorem ConvertX11Keycode_charOfByte (K : KeyConstants) (b : Nat) (hb : b < 256) :
    ConvertX11Keycode K (charOfByte b) = ConvertX11Keycode K ((b : Nat) : Int) := by
  unfold charOfByte
  rw [Nat.mod_eq_of_lt hb]
  split
  · rfl
  · rw [ConvertX11Keycode_out_of_range K _ (Or.inl (by omega)),
      ConvertX11Keycode_out_of_range K _ (Or.inr (by omega))]

theorem charOfByte_small (b : Nat) (h : b < 128) : charOfByte b = (b : Int) := by
  unfold charOfByte
  rw [Nat.mod_eq_of_lt (by omega), if_pos h]

theorem Holds.of_input (w : World) (inp : InputState) (valid : List Nat) (h : Holds w valid) :
    Holds (World.mk w.g_state inp w.traffic w.write_results) valid := h

theorem byteAt_append_left (a b : List Nat) (i : Nat) (hi : i < a.length) :
    byteAt (a ++ b) i = byteAt a i := by
  simp [byteAt, List.getD_eq_getElem?_getD, List.getElem?_append_left hi]

/-- One pass of the inner loop of `read_response` over a complete key event
frame at the front of the buffer. -/
theorem drainStep_key (K : KeyConstants) (s : DrainState) (f rest : List Nat)
    (hf : f.length = 32) (hfirst : byteAt f 0 = 2 ∨ byteAt f 0 = 3)
    (h : Holds s.w (f ++ rest)) (hsize : (f ++ rest).length ≤ 10000) :
    ∃ w', drainStep K s = Res.ret { s with w := w' } ∧ Holds w' rest ∧
      w'.g_input = keyEffects K [f] s.w.g_input ∧ w'.traffic = s.w.traffic ∧
      w'.g_state.next_resource_id = s.w.g_state.next_resource_id := by
  have hlen : (f ++ rest).length = 32 + rest.length := by rw [List.length_append, hf]
  have hb0 : byteAt s.w.g_state.recv_buf 0 = byteAt f 0 := by
    rw [h.byteAt_eq 0 (by omega), byteAt_append_left _ _ _ (by omega)]
  have hb1 : byteAt s.w.g_state.recv_buf 1 = byteAt f 1 := by
    rw [h.byteAt_eq 1 (by omega), byteAt_append_left _ _ _ (by omega)]
  have hnum : s.w.g_state.recv_buf_num_bytes ≥ 32 := by
    rw [h.1, hlen]; push_cast; omega
  have h32 : (8 * 4 : Int) = ((f.length : Nat) : Int) := by rw [hf]; rfl
  rcases hfirst with h2 | h3
  · have hc : charOfByte (byteAt s.w.g_state.recv_buf 0) = 2 := by
      rw [hb0, h2]; rfl
    obtain ⟨w', hw', hh, hi, ht, hn⟩ := ConsumeMessage_holds
      (World.mk s.w.g_state
        (InputState.mk s.w.g_input.keys
          (Function.update s.w.g_input.keyDowns (ConvertX11Keycode K (charOfByte (byteAt f 1))) 1)
          s.w.g_input.keyUps)
        s.w.traffic s.w.write_results) f rest
      (Holds.of_input _ _ _ h) hsize
    refine ⟨w', ?_, hh, ?_, ht, hn⟩
    · unfold drainStep
      rw [hc]
      simp only [if_pos hnum, hb1, h32, hw', Res.bind]
    · rw [hi]
      simp [keyEffects, h2]
  · have hc : charOfByte (byteAt s.w.g_state.recv_buf 0) = 3 := by
      rw [hb0, h3]; rfl
    obtain ⟨w', hw', hh, hi, ht, hn⟩ := ConsumeMessage_holds
      (World.mk s.w.g_state
        (InputState.mk s.w.g_input.keys s.w.g_input.keyDowns
          (Function.update s.w.g_input.keyUps (ConvertX11Keycode K (charOfByte (byteAt f 1))) 1))
        s.w.traffic s.w.write_results) f rest
      (Holds.of_input _ _ _ h) hsize
    refine ⟨w', ?_, hh, ?_, ht, hn⟩
    · unfold drainStep
      rw [hc]
      simp only [if_pos hnum, hb1, h32, hw', Res.bind]
    · rw [hi]
      simp [keyEffects, h3]

theorem keyEffects_cons (K : KeyConstants) (f : List Nat) (fs : List (List Nat))
    (inp : InputState) :
    keyEffects K (f :: fs) inp = keyEffects K fs (keyEffects K [f] inp) := rfl

/-- The inner loop of `read_response` over complete key event frames at the
front of the buffer: after one pass for each frame the buffer holds what
follows them, and the input state has the effects of the frames. -/
theorem drainLoop_frames (K : KeyConstants) :
    ∀ (frames : List (List Nat)) (s : DrainState) (rest : List Nat) (fuel : Nat),
      (∀ f ∈ frames, f.length = 32 ∧ (byteAt f 0 = 2 ∨ byteAt f 0 = 3)) →
      Holds s.w (frames.flatten ++ rest) → (frames.flatten ++ rest).length ≤ 10000 →
      s.keep_going ≠ 0 →
      ∃ w', Holds w' rest ∧ w'.g_input = keyEffects K frames s.w.g_input ∧
        w'.traffic = s.w.traffic ∧
        w'.g_state.next_resource_id = s.w.g_state.next_resource_id ∧
        drainLoop K (frames.length + fuel) s = drainLoop K fuel { s with w := w' } := by
  intro frames
  induction frames with
  | nil =>
    intro s rest fuel _ h _ _
    exact ⟨s.w, by simpa using h, rfl, rfl, rfl, by simp⟩
  | cons f fs ih =>
    intro s rest fuel hfr h hsize hkg
    have hf := hfr f (List.mem_cons_self _ _)
    rw [List.flatten_cons, List.append_assoc] at h hsize
    obtain ⟨w1, hstep, hh1, hi1, ht1, hn1⟩ := drainStep_key K s f (fs.flatten ++ rest) hf.1 hf.2 h hsize
    obtain ⟨w2, hh2, hi2, ht2, hn2, hloop⟩ := ih { s with w := w1 } rest fuel
      (fun g hg => hfr g (List.mem_cons_of_mem _ hg)) hh1
      (by rw [List.length_append] at hsize; omega) hkg
    refine ⟨w2, hh2, ?_, ?_, ?_, ?_⟩
    · rw [hi2, keyEffects_cons]; exact congrArg _ hi1
    · rw [ht2]; exact ht1
    · rw [hn2]; exact hn1
    · have hnum : s.w.g_state.recv_buf_num_bytes ≠ 0 := by
        rw [h.1, List.length_append, hf.1]; push_cast; omega
      have hfuel : (f :: fs).length + fuel = (fs.length + fuel) + 1 := by
        simp only [List.length_cons]; omega
      rw [hfuel]
      simp only [drainLoop, hkg, hnum, ne_eq, not_false_eq_true, and_self, if_true, hstep,
        Res.bind]
      exact hloop

/-- One pass of the inner loop of `read_response` when the buffer holds
exactly the expected reply. -/
theorem drainStep_reply (K : KeyConstants) (s : DrainState) (reply : List Nat)
    (hL : s.expected_len = reply.length) (hpos : 0 < reply.length)
    (h1 : byteAt reply 0 = 1) (h : Holds s.w reply) (hsize : reply.length ≤ 10000) :
    ∃ w', drainStep K s
        = Res.ret { s with w := w', buf := memWrite s.buf reply, expected_len := 0 } ∧
      Holds w' [] ∧ w'.g_input = s.w.g_input ∧ w'.traffic = s.w.traffic ∧
      w'.g_state.next_resource_id = s.w.g_state.next_resource_id := by
  have hb0 : byteAt s.w.g_state.recv_buf 0 = 1 := by
    rw [h.byteAt_eq 0 hpos, h1]
  have hc : charOfByte (byteAt s.w.g_state.recv_buf 0) = 1 := by
    rw [hb0]; rfl
  have hge : toSizeT s.w.g_state.recv_buf_num_bytes ≥ s.expected_len := by
    rw [h.1, toSizeT_natCast _ (by omega), hL]
  obtain ⟨w', hw', hh, hi, ht, hn⟩ := ConsumeMessage_holds s.w reply []
    (by simpa using h) (by simpa using hsize)
  refine ⟨w', ?_, hh, hi, ht, hn⟩
  unfold drainStep
  rw [hc]
  rw [hL] at hge
  simp only [hL, hw', Res.bind, h.2, if_pos hge]

theorem drainLoop_empty (K : KeyConstants) (fuel : Nat) (s : DrainState) (h : Holds s.w []) :
    drainLoop K fuel s = Res.ret s := by
  have h0 : s.w.g_state.recv_buf_num_bytes = 0 := by simpa using h.1
  cases fuel <;> simp [drainLoop, h0]

theorem read_response_done (K : KeyConstants) (fuel : Nat) (script : List RecvResult)
    (w : World) (buf : List Nat) : read_response K fuel script w buf 0 = Res.ret (w, buf) := by
  cases script <;> simp [read_response]

theorem keyEffects_keyDowns_keep (K : KeyConstants) (e : Int) :
    ∀ (frames : List (List Nat)) (inp : InputState), inp.keyDowns e = 1 →
      (keyEffects K frames inp).keyDowns e = 1 := by
  intro frames
  induction frames with
  | nil => intro inp h; exact h
  | cons f fs ih =>
    intro inp h
    rw [keyEffects_cons]
    apply ih
    simp only [keyEffects, List.foldl_cons, List.foldl_nil]
    split
    · by_cases he : e = ConvertX11Keycode K (charOfByte (byteAt f 1))
      · subst he; simp
      · simp [Function.update_noteq he, h]
    · exact h

theorem keyEffects_keyUps_keep (K : KeyConstants) (e : Int) :
    ∀ (frames : List (List Nat)) (inp : InputState), inp.keyUps e = 1 →
      (keyEffects K frames inp).keyUps e = 1 := by
  intro frames
  induction frames with
  | nil => intro inp h; exact h
  | cons f fs ih =>
    intro inp h
    rw [keyEffects_cons]
    apply ih
    simp only [keyEffects, List.foldl_cons, List.foldl_nil]
    split
    · exact h
    · by_cases he : e = ConvertX11Keycode K (charOfByte (byteAt f 1))
      · subst he; simp
      · simp [Function.update_noteq he, h]

theorem keyEffects_keyDowns (K : KeyConstants) :
    ∀ (frames : List (List Nat)) (inp : InputState) (f : List Nat), f ∈ frames →
      byteAt f 0 = 2 →
      (keyEffects K frames inp).keyDowns (ConvertX11Keycode K (charOfByte (byteAt f 1))) = 1 := by
  intro frames
  induction frames with
  | nil => intro inp f hf; simp at hf
  | cons g gs ih =>
    intro inp f hf h2
    rw [keyEffects_cons]
    rcases List.mem_cons.1 hf with h | h
    · subst h
      apply keyEffects_keyDowns_keep
      simp [keyEffects, h2]
    · exact ih _ f h h2

theorem keyEffects_keyUps (K : KeyConstants) :
    ∀ (frames : List (List Nat)) (inp : InputState) (f : List Nat), f ∈ frames →
      byteAt f 0 = 3 →
      (keyEffects K frames inp).keyUps (ConvertX11Keycode K (charOfByte (byteAt f 1))) = 1 := by
  intro frames
  induction frames with
  | nil => intro inp f hf; simp at hf
  | cons g gs ih =>
    intro inp f hf h3
    rw [keyEffects_cons]
    rcases List.mem_cons.1 hf with h | h
    · subst h
      apply keyEffects_keyUps_keep
      simp [keyEffects, h3]
    · exact ih _ f h h3

/-- The first pass of the outer loop of `read_response` when `recv` delivers
`bytes` into an empty buffer: the buffer then holds `bytes`, the inner loop
runs, and a buffer that is not empty afterwards is fatal. -/
theorem read_response_data (K : KeyConstants) (fuel : Nat) (bytes : List Nat)
    (rest : List RecvResult) (w : World) (buf : List Nat) (L : Nat)
    (hL : L ≠ 0) (hb : bytes.length ≠ 0) (hempty : w.g_state.recv_buf_num_bytes = 0)
    (hsize : bytes.length ≤ 10000) :
    Holds (recvInto bytes { w with traffic := w.traffic ++ [Traffic.read] }) bytes ∧
      read_response K fuel (RecvResult.data bytes :: rest) w buf L
        = (drainLoop K fuel
            { w := recvInto bytes { w with traffic := w.traffic ++ [Traffic.read] },
              buf := buf, expected_len := L, keep_going := 1 }).bind
            fun s =>
              if s.w.g_state.recv_buf_num_bytes ≠ 0 then Res.fatal Fatal.incompletePacket
              else read_response K fuel rest s.w s.buf s.expected_len := by
  refine ⟨⟨?_, ?_⟩, ?_⟩
  · simp [recvInto, hempty]
  · simp [recvInto, memWrite]
  · simp only [read_response, if_neg hL, if_neg hb]
    rw [if_neg]
    · generalize drainLoop K fuel _ = r
      cases r <;> rfl
    · simp only [recvInto, hempty, zero_add]
      rw [toSizeT_natCast _ (by omega)]
      simp only [RECV_BUF_SIZE]; omega

theorem read_response_idle (K : KeyConstants) (fuel : Nat) (script : List RecvResult)
    (buf : List Nat) (L : Nat) :
    ∀ (idle : List RecvResult) (w : World),
      (∀ r ∈ idle, r = RecvResult.wouldBlock ∨ r = RecvResult.data []) →
      ∃ w0, w0.g_state = w.g_state ∧ w0.g_input = w.g_input ∧
        read_response K fuel (idle ++ script) w buf L = read_response K fuel script w0 buf L := by
  intro idle
  induction idle with
  | nil => intro w _; exact ⟨w, rfl, rfl, rfl⟩
  | cons r rs ih =>
    intro w h
    by_cases hL : L = 0
    · subst hL
      exact ⟨w, rfl, rfl, by rw [read_response_done, read_response_done]⟩
    · obtain ⟨w0, hs, hi, hr⟩ := ih { w with traffic := w.traffic ++ [Traffic.read] }
        (fun x hx => h x (List.mem_cons_of_mem _ hx))
      refine ⟨w0, hs, hi, ?_⟩
      rw [← hr]
      rcases h r (List.mem_cons_self _ _) with h1 | h1 <;> subst h1 <;>
        simp [read_response, hL]

/-- A chunk of complete key event frames followed by the expected reply, received
into an empty buffer: `read_response` returns the reply and the input state has
the effects of the frames. -/
theorem read_response_chunk (K : KeyConstants) (fuel : Nat) (idle : List RecvResult)
    (frames : List (List Nat)) (reply : List Nat) (rest : List RecvResult)
    (w : World) (buf : List Nat) (L : Nat)
    (hidle : ∀ r ∈ idle, r = RecvResult.wouldBlock ∨ r = RecvResult.data [])
    (hempty : w.g_state.recv_buf_num_bytes = 0)
    (hframes : ∀ f ∈ frames,
      f.length = 32 ∧ (byteAt f 0 = 2 ∨ byteAt f 0 = 3) ∧ byteAt f 1 < 256)
    (hL : 0 < L) (hreply : reply.length = L) (hfirst : byteAt reply 0 = 1)
    (hsize : (frames.flatten ++ reply).length ≤ 10000)
    (hfuel : frames.length < fuel) :
    ∃ w' buf',
      read_response K fuel (idle ++ RecvResult.data (frames.flatten ++ reply) :: rest) w buf L
        = Res.ret (w', buf') ∧
      buf'.take L = reply ∧ buf'.drop L = buf.drop L ∧
      w'.g_state.recv_buf_num_bytes = 0 ∧
      (∀ f ∈ frames, byteAt f 0 = 2 →
        w'.g_input.keyDowns (ConvertX11Keycode K ((byteAt f 1 : Nat) : Int)) = 1) ∧
      (∀ f ∈ frames, byteAt f 0 = 3 →
        w'.g_input.keyUps (ConvertX11Keycode K ((byteAt f 1 : Nat) : Int)) = 1) := by
  obtain ⟨w0, hs0, hi0, hr0⟩ := read_response_idle K fuel
    (RecvResult.data (frames.flatten ++ reply) :: rest) buf L idle w hidle
  have hfr : ∀ f ∈ frames, f.length = 32 ∧ (byteAt f 0 = 2 ∨ byteAt f 0 = 3) :=
    fun f hf => ⟨(hframes f hf).1, (hframes f hf).2.1⟩
  have hne : (frames.flatten ++ reply).length ≠ 0 := by
    rw [List.length_append]; omega
  obtain ⟨hh1, hr1⟩ := read_response_data K fuel (frames.flatten ++ reply) rest w0
    buf L (by omega) hne (by rw [hs0]; exact hempty) hsize
  have hi1 : (recvInto (frames.flatten ++ reply)
      { w0 with traffic := w0.traffic ++ [Traffic.read] }).g_input = w0.g_input := rfl
  obtain ⟨m, hm⟩ : ∃ m, fuel = frames.length + (m + 1) := ⟨fuel - frames.length - 1, by omega⟩
  obtain ⟨w2, hh2, hi2, _, _, hloop⟩ := drainLoop_frames K frames
    { w := recvInto (frames.flatten ++ reply) { w0 with traffic := w0.traffic ++ [Traffic.read] },
      buf := buf, expected_len := L, keep_going := 1 } reply (m + 1) hfr hh1 hsize
    one_ne_zero
  obtain ⟨w3, hstep, hh3, hi3, _, _⟩ := drainStep_reply K
    { w := w2, buf := buf, expected_len := L, keep_going := 1 } reply hreply.symm
    (by omega) hfirst hh2 (by rw [List.length_append] at hsize; omega)
  have hnum2 : w2.g_state.recv_buf_num_bytes ≠ 0 := by
    rw [hh2.1]; omega
  have hnum3 : w3.g_state.recv_buf_num_bytes = 0 := by simpa using hh3.1
  have hdrain : drainLoop K fuel
      { w := recvInto (frames.flatten ++ reply) { w0 with traffic := w0.traffic ++ [Traffic.read] },
        buf := buf, expected_len := L, keep_going := 1 }
      = Res.ret { w := w3, buf := memWrite buf reply, expected_len := 0, keep_going := 1 } := by
    rw [hm, hloop]
    simp only [drainLoop, hnum2, ne_eq, not_false_eq_true, and_true, if_true, hstep, Res.bind,
      one_ne_zero]
    exact drainLoop_empty K m _ hh3
  refine ⟨w3, memWrite buf reply, ?_, ?_, ?_, hnum3, ?_, ?_⟩
  · rw [hr0, hr1, hdrain]
    simp only [Res.bind, hnum3, ne_eq, not_true_eq_false, if_false]
    exact read_response_done K fuel rest _ _
  · rw [← hreply]; simp [memWrite]
  · rw [← hreply]; simp [memWrite]
  · intro f hf h2
    rw [hi3, hi2, hi1, hi0, ← ConvertX11Keycode_charOfByte K _ (hframes f hf).2.2]
    exact keyEffects_keyDowns K frames w.g_input f hf h2
  · intro f hf h3
    rw [hi3, hi2, hi1, hi0, ← ConvertX11Keycode_charOfByte K _ (hframes f hf).2.2]
    exact keyEffects_keyUps K frames w.g_input f hf h3

/-- C1. Demultiplexer framing: starting from an empty receive buffer, when a
`recv` (after any number of empty or would-block results) delivers one chunk
of at most 10000 bytes made of complete 32 byte key event frames (first byte 2
or 3, second byte the server keycode) followed by one reply frame (first byte
1) of exactly the expected length `L > 0`, `read_response(buf, L)` returns
normally (given fuel for one pass per frame), `buf` holds exactly the `L`
reply bytes, `keyDowns[ConvertX11Keycode(code)]` is 1 for each key-press frame
and `keyUps[ConvertX11Keycode(code)]` is 1 for each key-release frame, and the
receive buffer is empty afterwards. -/
theorem C1_demux_framing (K : KeyConstants) (fuel : Nat) (idle : List RecvResult)
    (frames : List (List Nat)) (reply : List Nat) (rest : List RecvResult)
    (w : World) (buf : List Nat) (L : Nat)
    (hidle : ∀ r ∈ idle, r = RecvResult.wouldBlock ∨ r = RecvResult.data [])
    (hempty : w.g_state.recv_buf_num_bytes = 0)
    (hframes : ∀ f ∈ frames,
      f.length = 32 ∧ (byteAt f 0 = 2 ∨ byteAt f 0 = 3) ∧ byteAt f 1 < 256)
    (hL : 0 < L) (hreply : reply.length = L) (hfirst : byteAt reply 0 = 1)
    (hsize : (frames.flatten ++ reply).length ≤ 10000)
    (hfuel : frames.length < fuel) :
    ∃ w' buf',
      read_response K fuel (idle ++ RecvResult.data (frames.flatten ++ reply) :: rest) w buf L
        = Res.ret (w', buf') ∧
      buf'.take L = reply ∧ buf'.drop L = buf.drop L ∧
      w'.g_state.recv_buf_num_bytes = 0 ∧
      (∀ f ∈ frames, byteAt f 0 = 2 →
        w'.g_input.keyDowns (ConvertX11Keycode K ((byteAt f 1 : Nat) : Int)) = 1) ∧
      (∀ f ∈ frames, byteAt f 0 = 3 →
        w'.g_input.keyUps (ConvertX11Keycode K ((byteAt f 1 : Nat) : Int)) = 1) :=
  read_response_chunk K fuel idle frames reply rest w buf L hidle hempty hframes hL hreply
    hfirst hsize hfuel

/-- Witness of C1: after one would-block result, a chunk with a key-press and a
key-release frame for keycode 38 and a 40 byte reply. -/
theorem C1_demux_framing_witness :
    ∃ w' buf',
      read_response sampleKeys 3
          ([RecvResult.wouldBlock] ++
            RecvResult.data ([samplePressFrame, sampleReleaseFrame].flatten ++ sampleKeymapReply)
              :: [])
          (handshakenWorld 0 0 64 4) (List.replicate 40 0) 40
        = Res.ret (w', buf') ∧
      buf'.take 40 = sampleKeymapReply ∧ buf'.drop 40 = (List.replicate 40 0).drop 40 ∧
      w'.g_state.recv_buf_num_bytes = 0 ∧
      (∀ f ∈ [samplePressFrame, sampleReleaseFrame], byteAt f 0 = 2 →
        w'.g_input.keyDowns (ConvertX11Keycode sampleKeys ((byteAt f 1 : Nat) : Int)) = 1) ∧
      (∀ f ∈ [samplePressFrame, sampleReleaseFrame], byteAt f 0 = 3 →
        w'.g_input.keyUps (ConvertX11Keycode sampleKeys ((byteAt f 1 : Nat) : Int)) = 1) :=
  C1_demux_framing sampleKeys 3 [RecvResult.wouldBlock] [samplePressFrame, sampleReleaseFrame]
    sampleKeymapReply [] (handshakenWorld 0 0 64 4) (List.replicate 40 0) 40
    (by simp) rfl (by decide) (by decide) (by decide) (by decide) (by decide) (by decide)

/-- C6 (the code at the failing input). The server keycodes 50 (left shift) and
62 (right shift) are both mapped to `KEY_SHIFT`.  With the keys A and left
shift down and right shift up, `InputPoll` returns with `keys[KEY_A] = 1` but
`keys[KEY_SHIFT] = 0`, although the bit of keycode 50 in the reply is 1: the
decode loop has overwritten the entry with the bit of keycode 62. -/
theorem C6_left_shift_lost :
    ∃ w',
      InputPoll sampleKeys id 1 [RecvResult.data leftShiftKeymapReply] (List.replicate 40 0)
          (handshakenWorld 0 0 64 4) = Res.ret w' ∧
      ConvertX11Keycode sampleKeys 50 = sampleKeys.KEY_SHIFT ∧
      ConvertX11Keycode sampleKeys 62 = sampleKeys.KEY_SHIFT ∧
      sampleKeys.KEY_SHIFT ≠ 0 ∧
      keymapBit leftShiftKeymapReply 50 = 1 ∧
      keymapBit leftShiftKeymapReply 62 = 0 ∧
      w'.g_input.keys sampleKeys.KEY_SHIFT = 0 ∧
      ConvertX11Keycode sampleKeys 38 = sampleKeys.KEY_A ∧
      keymapBit leftShiftKeymapReply 38 = 1 ∧
      w'.g_input.keys sampleKeys.KEY_A = 1 := by
  have hsend : send_buf (wordsToBytes query_keymap_packet)
      { handshakenWorld 0 0 64 4 with g_input := id (handshakenWorld 0 0 64 4).g_input }
      = Res.ret
          { handshakenWorld 0 0 64 4 with
              traffic := (handshakenWorld 0 0 64 4).traffic
                ++ [Traffic.send (wordsToBytes query_keymap_packet)]
              write_results := List.replicate 31 fullWrite } :=
    send_buf_full _ _ _ rfl (by decide)
  obtain ⟨w1, buf', hread, htake, hdrop, _, _, _⟩ :=
    read_response_chunk sampleKeys 1 [] [] leftShiftKeymapReply []
      { handshakenWorld 0 0 64 4 with
          traffic := (handshakenWorld 0 0 64 4).traffic
            ++ [Traffic.send (wordsToBytes query_keymap_packet)]
          write_results := List.replicate 31 fullWrite }
      (List.replicate 40 0) 40
      (by simp) rfl (by simp) (by decide) (by decide) (by decide) (by decide) (by decide)
  have hbuf : buf' = leftShiftKeymapReply := by
    have h := List.take_append_drop 40 buf'
    rw [htake, hdrop] at h
    rw [← h]
    decide
  subst hbuf
  refine ⟨{ w1 with g_input :=
      { w1.g_input with keys := decodeKeymap sampleKeys leftShiftKeymapReply w1.g_input.keys } },
    ?_, by decide, by decide, by decide, by decide, by decide, ?_, by decide,
    by decide, ?_⟩
  · unfold InputPoll
    simp only [hsend, Res.bind]
    simp only [List.flatten_nil, List.nil_append] at hread
    rw [hread]
  · have h := decodeKeymap_last_keycode sampleKeys leftShiftKeymapReply w1.g_input.keys 62
      (by decide) (by intro k' h1 h2; interval_cases k' <;> decide)
    have h62 : ConvertX11Keycode sampleKeys ((62 : Nat) : Int) = sampleKeys.KEY_SHIFT := by
      decide
    rw [h62] at h
    dsimp only
    rw [h]
    decide
  · have h := decodeKeymap_last_keycode sampleKeys leftShiftKeymapReply w1.g_input.keys 38
      (by decide) (by intro k' h1 h2; interval_cases k' <;> decide)
    have h38 : ConvertX11Keycode sampleKeys ((38 : Nat) : Int) = sampleKeys.KEY_A := by
      decide
    rw [h38] at h
    dsimp only
    rw [h]
    decide

/-- One pass of the inner loop of `read_response` when the buffer holds fewer
bytes of a reply than expected: the loop is told to stop. -/
theorem drainStep_partial (K : KeyConstants) (s : DrainState) (part : List Nat)
    (hpos : 0 < part.length) (hlt : part.length < s.expected_len)
    (h1 : byteAt part 0 = 1) (h : Holds s.w part) (hsize : part.length ≤ 10000) :
    drainStep K s = Res.ret { s with keep_going := 0 } := by
  have hb0 : byteAt s.w.g_state.recv_buf 0 = 1 := by
    rw [h.byteAt_eq 0 hpos, h1]
  have hc : charOfByte (byteAt s.w.g_state.recv_buf 0) = 1 := by
    rw [hb0]; rfl
  have hge : ¬ toSizeT s.w.g_state.recv_buf_num_bytes ≥ s.expected_len := by
    rw [h.1, toSizeT_natCast _ (by omega)]
    omega
  unfold drainStep
  rw [hc]
  simp only [if_neg hge]

/-- A first part of the reply, shorter than expected, received into an empty
buffer: `read_response` terminates with "Received incomplete packet" and does
not call `recv` again. -/
theorem read_response_partial (K : KeyConstants) (fuel : Nat) (idle : List RecvResult)
    (part : List Nat) (rest : List RecvResult) (w : World) (buf : List Nat) (L : Nat)
    (hidle : ∀ r ∈ idle, r = RecvResult.wouldBlock ∨ r = RecvResult.data [])
    (hempty : w.g_state.recv_buf_num_bytes = 0)
    (hpos : 0 < part.length) (hlt : part.length < L) (h1 : byteAt part 0 = 1)
    (hsize : part.length ≤ 10000) (hfuel : 0 < fuel) :
    read_response K fuel (idle ++ RecvResult.data part :: rest) w buf L
      = Res.fatal Fatal.incompletePacket := by
  obtain ⟨w0, hs0, _, hr0⟩ := read_response_idle K fuel (RecvResult.data part :: rest) buf L
    idle w hidle
  obtain ⟨hh1, hr1⟩ := read_response_data K fuel part rest w0 buf L (by omega) (by omega)
    (by rw [hs0]; exact hempty) hsize
  obtain ⟨m, rfl⟩ : ∃ m, fuel = m + 1 := ⟨fuel - 1, by omega⟩
  have hnum : (recvInto part { w0 with traffic := w0.traffic ++ [Traffic.read] }).g_state.recv_buf_num_bytes
      ≠ 0 := by
    rw [hh1.1]; omega
  have hstep := drainStep_partial K
    { w := recvInto part { w0 with traffic := w0.traffic ++ [Traffic.read] },
      buf := buf, expected_len := L, keep_going := 1 } part hpos hlt h1 hh1 hsize
  have hdrain : drainLoop K (m + 1)
      { w := recvInto part { w0 with traffic := w0.traffic ++ [Traffic.read] },
        buf := buf, expected_len := L, keep_going := 1 }
      = Res.ret
        { w := recvInto part { w0 with traffic := w0.traffic ++ [Traffic.read] },
          buf := buf, expected_len := L, keep_going := 0 } := by
    simp only [drainLoop, hnum, ne_eq, not_false_eq_true, and_true, if_true, hstep, Res.bind,
      one_ne_zero]
    cases m <;> simp [drainLoop]
  rw [hr0, hr1, hdrain]
  simp only [Res.bind, hnum, ne_eq, not_false_eq_true, if_true]

/-- C2 (as amended). Reply wait across receives: for an expected length
`L > 0` and a reply frame of `L` bytes (first byte 1), starting from an empty
buffer, `read_response(buf, L)` keeps calling `recv` while it delivers nothing
and returns normally, with `buf` equal to the `L` reply bytes and the buffer
empty, when the reply then arrives whole in one receive (so `L ≤ 10000`); when
a receive delivers only the first `k` bytes, `1 ≤ k < L`, it terminates with
"Received incomplete packet" without receiving the rest. -/
theorem C2_reply_wait (K : KeyConstants) (fuel : Nat) (idle : List RecvResult)
    (reply : List Nat) (rest : List RecvResult) (w : World) (buf : List Nat) (L : Nat)
    (hidle : ∀ r ∈ idle, r = RecvResult.wouldBlock ∨ r = RecvResult.data [])
    (hempty : w.g_state.recv_buf_num_bytes = 0)
    (hL : 0 < L) (hreply : reply.length = L) (hfirst : byteAt reply 0 = 1)
    (hfuel : 0 < fuel) :
    (L ≤ 10000 →
      ∃ w' buf',
        read_response K fuel (idle ++ RecvResult.data reply :: rest) w buf L
          = Res.ret (w', buf') ∧
        buf'.take L = reply ∧ w'.g_state.recv_buf_num_bytes = 0) ∧
    (∀ k, 1 ≤ k → k < L → k ≤ 10000 →
      read_response K fuel
          (idle ++ RecvResult.data (reply.take k) :: RecvResult.data (reply.drop k) :: rest)
          w buf L
        = Res.fatal Fatal.incompletePacket) := by
  constructor
  · intro hsize
    obtain ⟨w', buf', hr, hb, _, hn, _, _⟩ := read_response_chunk K fuel idle [] reply rest w buf L
      hidle hempty (by simp) hL hreply hfirst (by simpa [hreply] using hsize) (by simpa using hfuel)
    exact ⟨w', buf', by simpa using hr, hb, hn⟩
  · intro k hk1 hk2 hk3
    have hlen : (reply.take k).length = k := by
      rw [List.length_take]; omega
    apply read_response_partial K fuel idle (reply.take k) _ w buf L hidle hempty
      (by omega) (by omega) _ (by omega) hfuel
    simp only [byteAt, List.getD_eq_getElem?_getD]
    rw [List.getElem?_take_of_lt (by omega)]
    simpa [byteAt, List.getD_eq_getElem?_getD] using hfirst

/-- Witness of C2: the 40 byte sample reply after one would-block result. -/
theorem C2_reply_wait_witness :
    (40 ≤ 10000 →
      ∃ w' buf',
        read_response sampleKeys 1
            ([RecvResult.wouldBlock] ++ RecvResult.data sampleKeymapReply :: [])
            (handshakenWorld 0 0 64 4) (List.replicate 40 0) 40 = Res.ret (w', buf') ∧
        buf'.take 40 = sampleKeymapReply ∧ w'.g_state.recv_buf_num_bytes = 0) ∧
    (∀ k, 1 ≤ k → k < 40 → k ≤ 10000 →
      read_response sampleKeys 1
          ([RecvResult.wouldBlock] ++ RecvResult.data (sampleKeymapReply.take k)
            :: RecvResult.data (sampleKeymapReply.drop k) :: [])
          (handshakenWorld 0 0 64 4) (List.replicate 40 0) 40
        = Res.fatal Fatal.incompletePacket) :=
  C2_reply_wait sampleKeys 1 [RecvResult.wouldBlock] sampleKeymapReply []
    (handshakenWorld 0 0 64 4) (List.replicate 40 0) 40
    (by simp) rfl (by decide) (by decide) (by decide) (by decide)

/-- C2 (counterexample). The 40 byte sample reply delivered in two receives of
20 bytes each: `read_response(buf, 40)` does not wait for the second receive;
it terminates with "Received incomplete packet" after the first and never
returns. -/
theorem C2_counterexample :
    read_response sampleKeys 4
        [RecvResult.data (sampleKeymapReply.take 20), RecvResult.data (sampleKeymapReply.drop 20)]
        (handshakenWorld 0 0 64 4) (List.replicate 40 0) 40
      = Res.fatal Fatal.incompletePacket ∧
    ¬ ∃ r, read_response sampleKeys 4
        [RecvResult.data (sampleKeymapReply.take 20), RecvResult.data (sampleKeymapReply.drop 20)]
        (handshakenWorld 0 0 64 4) (List.replicate 40 0) 40 = Res.ret r := by
  have h := read_response_partial sampleKeys 4 [] (sampleKeymapReply.take 20)
    [RecvResult.data (sampleKeymapReply.drop 20)] (handshakenWorld 0 0 64 4)
    (List.replicate 40 0) 40 (by simp) rfl (by decide) (by decide) (by decide) (by decide)
    (by decide)
  rw [List.nil_append] at h
  refine ⟨h, ?_⟩
  rintro ⟨r, hr⟩
  rw [h] at hr
  cases hr

/-- The diagnostic of `HandleErrorEvent` for an error frame whose second byte
is `b`: the byte is read as a signed `char`. -/
theorem HandleErrorEvent_byte (w : World) (b : Nat) (hb : b < 256)
    (h : byteAt w.g_state.recv_buf 1 = b) :
    HandleErrorEvent w =
      if b = 9 then Fatal.badDrawable
      else if b = 16 then Fatal.badLength
      else if b < 128 then Fatal.unknownErrorCode (b : Int)
      else Fatal.unknownErrorCode ((b : Int) - 256) := by
  unfold HandleErrorEvent
  rw [h]
  by_cases h9 : b = 9
  · subst h9; rfl
  by_cases h16 : b = 16
  · subst h16; rfl
  rw [if_neg h9, if_neg h16]
  have hc : charOfByte b = if b < 128 then (b : Int) else (b : Int) - 256 := by
    unfold charOfByte
    rw [Nat.mod_eq_of_lt hb]
  have hne9 : charOfByte b ≠ 9 := by rw [hc]; split <;> omega
  have hne16 : charOfByte b ≠ 16 := by rw [hc]; split <;> omega
  have hm : ∀ c : Int, c ≠ 9 → c ≠ 16 →
      (match c with
        | 9 => Fatal.badDrawable
        | 16 => Fatal.badLength
        | c => Fatal.unknownErrorCode c) = Fatal.unknownErrorCode c := by
    intro c h1 h2
    split
    · exact absurd rfl h1
    · exact absurd rfl h2
    · rfl
  rw [hm _ hne9 hne16, hc]
  split <;> rfl

/-- An error frame at the front of the chunk received into an empty buffer:
`read_response` terminates with the diagnostic of `HandleErrorEvent`. -/
theorem read_response_error_frame (K : KeyConstants) (fuel : Nat) (idle : List RecvResult)
    (chunk : List Nat) (rest : List RecvResult) (w : World) (buf : List Nat) (L b : Nat)
    (hidle : ∀ r ∈ idle, r = RecvResult.wouldBlock ∨ r = RecvResult.data [])
    (hempty : w.g_state.recv_buf_num_bytes = 0) (hL : 0 < L)
    (hlen : 2 ≤ chunk.length) (h0 : byteAt chunk 0 = 0) (h1 : byteAt chunk 1 = b)
    (hb : b < 256) (hsize : chunk.length ≤ 10000) (hfuel : 0 < fuel) :
    read_response K fuel (idle ++ RecvResult.data chunk :: rest) w buf L
      = Res.fatal
          (if b = 9 then Fatal.badDrawable
           else if b = 16 then Fatal.badLength
           else if b < 128 then Fatal.unknownErrorCode (b : Int)
           else Fatal.unknownErrorCode ((b : Int) - 256)) := by
  obtain ⟨w0, hs0, _, hr0⟩ := read_response_idle K fuel (RecvResult.data chunk :: rest) buf L
    idle w hidle
  obtain ⟨hh1, hr1⟩ := read_response_data K fuel chunk rest w0 buf L (by omega) (by omega)
    (by rw [hs0]; exact hempty) hsize
  obtain ⟨m, rfl⟩ : ∃ m, fuel = m + 1 := ⟨fuel - 1, by omega⟩
  have hnum : (recvInto chunk { w0 with traffic := w0.traffic ++ [Traffic.read] }).g_state.recv_buf_num_bytes
      ≠ 0 := by
    rw [hh1.1]; omega
  have hc : charOfByte (byteAt
      (recvInto chunk { w0 with traffic := w0.traffic ++ [Traffic.read] }).g_state.recv_buf 0)
      = 0 := by
    rw [hh1.byteAt_eq 0 (by omega), h0]; rfl
  have hd := HandleErrorEvent_byte
    (recvInto chunk { w0 with traffic := w0.traffic ++ [Traffic.read] }) b hb
    (by rw [hh1.byteAt_eq 1 (by omega), h1])
  rw [hr0, hr1]
  simp only [drainLoop, hnum, ne_eq, not_false_eq_true, and_true, if_true, one_ne_zero]
  unfold drainStep
  simp only [hc, Res.bind, hd]

/-- C9 (the code at the failing input). An error frame whose second byte is
200, received while a reply of 40 bytes is expected: `read_response`
terminates, and the "Unknown error code" message carries -56, the byte read as
a signed `char`, not 200. -/
theorem C9_error_code_200 :
    byteAt sampleErrorFrame 0 = 0 ∧ byteAt sampleErrorFrame 1 = 200 ∧
    read_response sampleKeys 1 [RecvResult.data sampleErrorFrame]
        (handshakenWorld 0 0 64 4) (List.replicate 40 0) 40
      = Res.fatal (Fatal.unknownErrorCode (-56)) := by
  refine ⟨by decide, by decide, ?_⟩
  have h := read_response_error_frame sampleKeys 1 [] sampleErrorFrame []
    (handshakenWorld 0 0 64 4) (List.replicate 40 0) 40 200 (by simp) rfl (by decide)
    (by decide) (by decide) (by decide) (by decide) (by decide) (by decide)
  rw [List.nil_append] at h
  rw [h]
  rfl

theorem keycodeTable_values (K : KeyConstants) :
    (keycodeTable K).map (fun p => ConvertX11Keycode K p.1) = (keycodeTable K).map Prod.snd := by
  rfl

theorem keycodeTable_keys (K : KeyConstants) :
    (keycodeTable K).map Prod.fst
      = (List.range 40).map (fun n => ((n + 9 : Nat) : Int))
        ++ (List.range 28).map (fun n => ((n + 50 : Nat) : Int))
        ++ (List.range 13).map (fun n => ((n + 79 : Nat) : Int))
        ++ (List.range 3).map (fun n => ((n + 94 : Nat) : Int))
        ++ [106]
        ++ (List.range 10).map (fun n => ((n + 110 : Nat) : Int))
        ++ [127] := by
  rfl

theorem ConvertX11Keycode_not_in_table (K : KeyConstants) (i : Int) (h : ¬ inKeycodeTable i) :
    ConvertX11Keycode K i = 0 := by
  by_cases hneg : i < 0
  · exact ConvertX11Keycode_neg K i hneg
  by_cases hbig : 127 < i
  · exact ConvertX11Keycode_out_of_range K i (Or.inr hbig)
  obtain ⟨n, rfl⟩ : ∃ n : Nat, i = (n : Int) := ⟨i.toNat, by omega⟩
  have hn : n ≤ 127 := by omega
  unfold inKeycodeTable at h
  interval_cases n <;> first | rfl | (exfalso; apply h; decide)

theorem mem_shifted_range (i : Int) (len base : Nat) :
    i ∈ (List.range len).map (fun n => ((n + base : Nat) : Int))
      ↔ ((base : Int) ≤ i ∧ i < ((base + len : Nat) : Int)) := by
  simp only [List.mem_map, List.mem_range]
  constructor
  · rintro ⟨n, hn, rfl⟩
    push_cast
    omega
  · rintro ⟨h1, h2⟩
    refine ⟨(i - base).toNat, ?_, ?_⟩
    · push_cast at h2; omega
    · push_cast; omega

theorem inKeycodeTable_iff (K : KeyConstants) (i : Int) :
    inKeycodeTable i ↔ i ∈ (keycodeTable K).map Prod.fst := by
  rw [keycodeTable_keys]
  simp only [List.mem_append, mem_shifted_range, List.mem_singleton, inKeycodeTable]
  push_cast
  omega

/-- C11. Keycode table: `ConvertX11Keycode` is a function of the keycode (and
of the engine's constants); every server keycode with a `case` in its table
(these are 9..48, 50..77, 79..91, 94..96, 106, 110..119 and 127) maps to the
constant the table names, which is non-zero when every constant of the table
is non-zero; every other integer maps to 0. -/
theorem C11_keycode_table (K : KeyConstants) :
    (∀ p ∈ keycodeTable K, ConvertX11Keycode K p.1 = p.2) ∧
    (∀ i : Int, inKeycodeTable i ↔ i ∈ (keycodeTable K).map Prod.fst) ∧
    ((∀ p ∈ keycodeTable K, p.2 ≠ 0) →
      ∀ i : Int, inKeycodeTable i → ConvertX11Keycode K i ≠ 0) ∧
    (∀ i : Int, ¬ inKeycodeTable i → ConvertX11Keycode K i = 0) := by
  have h1 : ∀ p ∈ keycodeTable K, ConvertX11Keycode K p.1 = p.2 :=
    List.map_inj_left.1 (keycodeTable_values K)
  refine ⟨h1, inKeycodeTable_iff K, ?_, ConvertX11Keycode_not_in_table K⟩
  intro hnz i hi
  obtain ⟨p, hp, rfl⟩ := List.mem_map.1 ((inKeycodeTable_iff K i).1 hi)
  rw [h1 p hp]
  exact hnz p hp

/-- Witness of C11: the sample constants, none of which is zero. -/
theorem C11_keycode_table_witness :
    (∀ p ∈ keycodeTable sampleKeys, ConvertX11Keycode sampleKeys p.1 = p.2) ∧
    (∀ i : Int, inKeycodeTable i ↔ i ∈ (keycodeTable sampleKeys).map Prod.fst) ∧
    ((∀ p ∈ keycodeTable sampleKeys, p.2 ≠ 0) →
      ∀ i : Int, inKeycodeTable i → ConvertX11Keycode sampleKeys i ≠ 0) ∧
    (∀ i : Int, ¬ inKeycodeTable i → ConvertX11Keycode sampleKeys i = 0) :=
  C11_keycode_table sampleKeys

/-- C12 (as amended). Unmapped key events: for a complete key-press or
key-release event frame at the front of the buffer whose keycode is mapped to
0 by `ConvertX11Keycode`, the demultiplexer consumes the 32 byte frame and
leaves `keys` and every entry of `keyDowns` and `keyUps` other than entry 0
unchanged; a key-press frame sets `keyDowns[0]` to 1 and leaves `keyUps`
unchanged, a key-release frame sets `keyUps[0]` to 1 and leaves `keyDowns`
unchanged. -/
theorem C12_unmapped_key_event (K : KeyConstants) (s : DrainState) (f rest : List Nat)
    (hf : f.length = 32) (hfirst : byteAt f 0 = 2 ∨ byteAt f 0 = 3)
    (hcode : ConvertX11Keycode K (charOfByte (byteAt f 1)) = 0)
    (h : Holds s.w (f ++ rest)) (hsize : (f ++ rest).length ≤ 10000) :
    ∃ w', drainStep K s = Res.ret { s with w := w' } ∧ Holds w' rest ∧
      w'.g_input.keys = s.w.g_input.keys ∧
      (∀ e : Int, e ≠ 0 →
        w'.g_input.keyDowns e = s.w.g_input.keyDowns e ∧
        w'.g_input.keyUps e = s.w.g_input.keyUps e) ∧
      (byteAt f 0 = 2 →
        w'.g_input.keyDowns 0 = 1 ∧ w'.g_input.keyUps = s.w.g_input.keyUps) ∧
      (byteAt f 0 = 3 →
        w'.g_input.keyUps 0 = 1 ∧ w'.g_input.keyDowns = s.w.g_input.keyDowns) := by
  obtain ⟨w', hstep, hh, hi, _, _⟩ := drainStep_key K s f rest hf hfirst h hsize
  refine ⟨w', hstep, hh, ?_, ?_, ?_, ?_⟩
  · rw [hi]
    simp only [keyEffects, List.foldl_cons, List.foldl_nil]
    split <;> rfl
  · intro e he
    rw [hi]
    simp only [keyEffects, List.foldl_cons, List.foldl_nil, hcode]
    split <;> simp [Function.update_noteq he]
  · intro h2
    rw [hi]
    simp [keyEffects, h2, hcode]
  · intro h3
    rw [hi]
    simp [keyEffects, h3, hcode]

/-- Witness of C12: a key-press frame for keycode 49 at the front of the buffer
of the world after the handshake. -/
theorem C12_unmapped_key_event_witness :
    ∃ w', drainStep sampleKeys
        { w := recvInto sampleUnmappedPressFrame (handshakenWorld 0 0 64 4),
          buf := [], expected_len := 40, keep_going := 1 }
        = Res.ret
          { w := w', buf := [], expected_len := 40, keep_going := 1 } ∧
      Holds w' [] ∧
      w'.g_input.keys = (handshakenWorld 0 0 64 4).g_input.keys ∧
      (∀ e : Int, e ≠ 0 →
        w'.g_input.keyDowns e = (handshakenWorld 0 0 64 4).g_input.keyDowns e ∧
        w'.g_input.keyUps e = (handshakenWorld 0 0 64 4).g_input.keyUps e) ∧
      (byteAt sampleUnmappedPressFrame 0 = 2 →
        w'.g_input.keyDowns 0 = 1 ∧
        w'.g_input.keyUps = (handshakenWorld 0 0 64 4).g_input.keyUps) ∧
      (byteAt sampleUnmappedPressFrame 0 = 3 →
        w'.g_input.keyUps 0 = 1 ∧
        w'.g_input.keyDowns = (handshakenWorld 0 0 64 4).g_input.keyDowns) :=
  C12_unmapped_key_event sampleKeys
    { w := recvInto sampleUnmappedPressFrame (handshakenWorld 0 0 64 4),
      buf := [], expected_len := 40, keep_going := 1 }
    sampleUnmappedPressFrame [] (by decide) (by decide) (by decide)
    ⟨rfl, by simp [recvInto, memWrite]⟩ (by decide)

/-- C12 (counterexample). A complete key-press frame for keycode 49, which
`ConvertX11Keycode` maps to 0, received while every entry of `keyDowns` is 0:
`read_response` consumes it with the reply that follows, and afterwards
`keyDowns[0]` is 1, so an entry of `keyDowns` has changed. -/
theorem C12_counterexample :
    ConvertX11Keycode sampleKeys (charOfByte (byteAt sampleUnmappedPressFrame 1)) = 0 ∧
    (handshakenWorld 0 0 64 4).g_input.keyDowns 0 = 0 ∧
    ∃ w' buf',
      read_response sampleKeys 2
          [RecvResult.data ([sampleUnmappedPressFrame].flatten ++ sampleKeymapReply)]
          (handshakenWorld 0 0 64 4) (List.replicate 40 0) 40 = Res.ret (w', buf') ∧
      w'.g_input.keyDowns 0 = 1 := by
  refine ⟨by decide, rfl, ?_⟩
  obtain ⟨w', buf', hr, _, _, _, hd, _⟩ := read_response_chunk sampleKeys 2 []
    [sampleUnmappedPressFrame] sampleKeymapReply [] (handshakenWorld 0 0 64 4)
    (List.replicate 40 0) 40 (by simp) rfl (by decide) (by decide) (by decide) (by decide)
    (by decide) (by decide)
  refine ⟨w', buf', by simpa using hr, ?_⟩
  have := hd sampleUnmappedPressFrame (by simp) (by decide)
  simpa using this

theorem generate_ids_socket_fd (n : Nat) :
    ∀ w : World, (generate_ids n w).2.g_state.socket_fd = w.g_state.socket_fd := by
  induction n with
  | zero => intro w; rfl
  | succ n ih => intro w; exact ih (generate_id w).2

theorem ensure_state_established (env : HandshakeEnv) (w : World)
    (h : w.g_state.socket_fd ≥ 0) : ensure_state env w = Res.ret w := by
  unfold ensure_state
  rw [if_pos h]

/-- C13. Idempotent connection setup: when the connection is established
(`socket_fd ≥ 0`) `ensure_state` returns the world as it is: no send, no read,
every field of `g_state` unchanged, `next_resource_id` included.  Hence after
a first call that returns (having performed the handshake, three sends and
two reads, when the connection was not established) a second call does
nothing, also after `n` calls of `generate_id`: the counter stays where it
stood and the next ids continue from it. -/
theorem C13_ensure_state_idempotent (env env2 : HandshakeEnv) (w : World) (n : Nat) :
    (w.g_state.socket_fd ≥ 0 → ensure_state env w = Res.ret w) ∧
    (∀ w', ensure_state env w = Res.ret w' →
      w'.g_state.socket_fd ≥ 0 ∧
      ensure_state env2 w' = Res.ret w' ∧
      (w.g_state.socket_fd < 0 →
        (w'.traffic.filter (· = Traffic.read)).length
            = (w.traffic.filter (· = Traffic.read)).length + 2 ∧
        w'.traffic.length = w.traffic.length + 5) ∧
      ensure_state env2 (generate_ids n w').2 = Res.ret (generate_ids n w').2) := by
  refine ⟨ensure_state_established env w, ?_⟩
  intro w' h
  have hfd : w'.g_state.socket_fd ≥ 0 := by
    by_cases hw : w.g_state.socket_fd ≥ 0
    · rw [ensure_state_established env w hw] at h
      cases h
      exact hw
    · have hlt : w.g_state.socket_fd < 0 := by omega
      obtain ⟨file, header, body, _, _, _, hst, _, _⟩ := ensure_state_ret env w w' hlt h
      rw [hst]
      simp only [ensure_state, if_neg hw] at h
      by_cases h1 : env.socket_result < 0
      · simp [h1] at h
      · show env.socket_result ≥ 0
        omega
  have hfd2 : (generate_ids n w').2.g_state.socket_fd ≥ 0 := by
    rw [generate_ids_socket_fd]; exact hfd
  refine ⟨hfd, ensure_state_established env2 w' hfd, ?_,
    ensure_state_established env2 _ hfd2⟩
  intro hlt
  obtain ⟨file, header, body, _, _, _, _, _, ht⟩ := ensure_state_ret env w w' hlt h
  rw [ht]
  constructor
  · rw [List.filter_append]
    simp
  · simp

theorem toSizeT_le_of_not_gt (n : Int) (h0 : 0 ≤ n) (hn : n < 2 ^ 64) (k : Nat)
    (h : ¬ toSizeT n > k) : n ≤ (k : Int) := by
  unfold toSizeT at h
  rw [Int.emod_eq_of_lt h0 hn] at h
  omega

/-- A `ConsumeMessage` that returns leaves the count within the buffer. -/
theorem ConsumeMessage_inRange (len : Int) (w w' : World)
    (hint : w.g_state.recv_buf_num_bytes < 2 ^ 31)
    (h : ConsumeMessage len w = Res.ret w') : CountInRange w' := by
  unfold ConsumeMessage at h
  simp only at h
  split at h
  · cases h
  · rename_i hneg
    split at h
    · cases h
    · rename_i hsz
      simp only [Res.ret.injEq] at h
      subst h
      have h0 : 0 ≤ w.g_state.recv_buf_num_bytes - len := by omega
      exact ⟨h0, toSizeT_le_of_not_gt _ h0 (by omega) _ hsz⟩

theorem bind_ConsumeMessage_inRange (len : Int) (w1 : World) (f : World → DrainState)
    (t : DrainState) (hint : w1.g_state.recv_buf_num_bytes < 2 ^ 31)
    (hf : ∀ w2, (f w2).w = w2)
    (h : ((ConsumeMessage len w1).bind fun w2 => Res.ret (f w2)) = Res.ret t) :
    CountInRange t.w := by
  cases hc : ConsumeMessage len w1 with
  | ret w2 =>
    rw [hc] at h
    simp only [Res.bind, Res.ret.injEq] at h
    subst h
    rw [hf]
    exact ConsumeMessage_inRange _ _ _ hint hc
  | fatal d => rw [hc] at h; cases h
  | spin => rw [hc] at h; cases h
  | starved => rw [hc] at h; cases h
  | undefined => rw [hc] at h; cases h

/-- A pass of the inner loop of `read_response` that does not terminate the
program keeps the count within the buffer. -/
theorem drainStep_inRange (K : KeyConstants) (s t : DrainState)
    (hin : CountInRange s.w) (h : drainStep K s = Res.ret t) : CountInRange t.w := by
  have hint : s.w.g_state.recv_buf_num_bytes < 2 ^ 31 := by
    have := hin.2
    simp only [RECV_BUF_SIZE] at this
    omega
  unfold drainStep at h
  split at h
  · cases h
  · split at h
    · dsimp only at h
      refine bind_ConsumeMessage_inRange _ _ _ t ?_ (fun _ => rfl) h
      exact hint
    · simp only [Res.ret.injEq] at h
      subst h
      exact hin
  · split at h
    · dsimp only at h
      refine bind_ConsumeMessage_inRange _ _ _ t ?_ (fun _ => rfl) h
      exact hint
    · simp only [Res.ret.injEq] at h
      subst h
      exact hin
  · split at h
    · dsimp only at h
      refine bind_ConsumeMessage_inRange _ _ _ t ?_ (fun _ => rfl) h
      exact hint
    · simp only [Res.ret.injEq] at h
      subst h
      exact hin
  · cases h

theorem DrainReach_inRange (K : KeyConstants) (s t : DrainState)
    (hin : CountInRange s.w) (h : DrainReach K s t) : CountInRange t.w := by
  induction h with
  | start => exact hin
  | pass t u _ _ hstep ih => exact drainStep_inRange K t u ih hstep

/-- The state in which the inner loop ends is one of the states it passes
through. -/
theorem drainLoop_reach (K : KeyConstants) :
    ∀ (fuel : Nat) (s t : DrainState), drainLoop K fuel s = Res.ret t → DrainReach K s t := by
  intro fuel
  induction fuel with
  | zero =>
    intro s t h
    simp only [drainLoop] at h
    split at h
    · cases h
    · cases h; exact DrainReach.start
  | succ fuel ih =>
    intro s t h
    simp only [drainLoop] at h
    split at h
    · rename_i hc
      cases hstep : drainStep K s with
      | ret u =>
        rw [hstep] at h
        simp only [Res.bind] at h
        have hu := ih u t h
        clear h ih
        induction hu with
        | start => exact DrainReach.pass s u DrainReach.start hc hstep
        | pass a b _ hc2 hs2 ih2 => exact DrainReach.pass a b ih2 hc2 hs2
      | fatal d => rw [hstep] at h; cases h
      | spin => rw [hstep] at h; cases h
      | starved => rw [hstep] at h; cases h
      | undefined => rw [hstep] at h; cases h
    · cases h; exact DrainReach.start

theorem recvInto_inRange (bytes : List Nat) (w : World) (hempty : w.g_state.recv_buf_num_bytes = 0)
    (hlen : bytes.length ≤ 10000)
    (_hfit : ¬ toSizeT (recvInto bytes w).g_state.recv_buf_num_bytes > RECV_BUF_SIZE) :
    CountInRange (recvInto bytes w) := by
  have hnum : (recvInto bytes w).g_state.recv_buf_num_bytes = (bytes.length : Int) := by
    simp [recvInto, hempty]
  refine ⟨by rw [hnum]; omega, ?_⟩
  rw [hnum]
  simp only [RECV_BUF_SIZE]
  omega

/-- Every world that `read_response` passes through from an empty buffer has
its count within the buffer. -/
theorem ReadReach_inRange (K : KeyConstants) (fuel : Nat) (script : List RecvResult)
    (w : World) (buf : List Nat) (L : Nat) (x : World)
    (hreach : ReadReach K fuel script w buf L x) :
    w.g_state.recv_buf_num_bytes = 0 →
    (∀ bytes, RecvResult.data bytes ∈ script → bytes.length ≤ 10000) →
    CountInRange x := by
  induction hreach with
  | start script w buf L =>
    intro h0 _
    exact ⟨by rw [h0], by rw [h0]; simp [RECV_BUF_SIZE]⟩
  | wouldBlock rest w buf L x _ _ ih =>
    intro h0 hs
    exact ih h0 (fun b hb => hs b (List.mem_cons_of_mem _ hb))
  | closed bytes rest w buf L x _ _ _ ih =>
    intro h0 hs
    exact ih h0 (fun b hb => hs b (List.mem_cons_of_mem _ hb))
  | drain bytes rest w buf L t _ _ hfit hreach =>
    intro h0 hs
    exact DrainReach_inRange K _ t
      (recvInto_inRange bytes _ h0 (hs bytes (List.mem_cons_self _ _)) hfit) hreach
  | next bytes rest w buf L s x _ _ _ _ hzero _ ih =>
    intro _ hs
    exact ih hzero (fun b hb => hs b (List.mem_cons_of_mem _ hb))

/-- When `read_response` returns, having started with an empty buffer, the
buffer is empty. -/
theorem read_response_ret_empty (K : KeyConstants) (fuel : Nat) :
    ∀ (script : List RecvResult) (w : World) (buf : List Nat) (L : Nat) (w' : World)
      (buf' : List Nat),
      w.g_state.recv_buf_num_bytes = 0 →
      read_response K fuel script w buf L = Res.ret (w', buf') →
      w'.g_state.recv_buf_num_bytes = 0 ∧ ReadReach K fuel script w buf L w' := by
  intro script
  induction script with
  | nil =>
    intro w buf L w' buf' h0 h
    simp only [read_response] at h
    split at h
    · cases h; exact ⟨h0, ReadReach.start _ _ _ _⟩
    · cases h
  | cons r rest ih =>
    intro w buf L w' buf' h0 h
    by_cases hL : L = 0
    · subst hL
      rw [read_response_done] at h
      cases h
      exact ⟨h0, ReadReach.start _ _ _ _⟩
    · cases r with
      | wouldBlock =>
        simp only [read_response, if_neg hL] at h
        obtain ⟨ha, hb⟩ :=
            ih (World.mk w.g_state w.g_input (w.traffic ++ [Traffic.read]) w.write_results) buf L w' buf' h0 h
        exact ⟨ha, ReadReach.wouldBlock rest w buf L w' hL hb⟩
      | error =>
        simp only [read_response, if_neg hL] at h
        cases h
      | data bytes =>
        simp only [read_response, if_neg hL] at h
        split at h
        · rename_i hb0
          obtain ⟨ha, hb⟩ :=
            ih (World.mk w.g_state w.g_input (w.traffic ++ [Traffic.read]) w.write_results) buf L w' buf' h0 h
          exact ⟨ha, ReadReach.closed bytes rest w buf L w' hL hb0 hb⟩
        · rename_i hb0
          split at h
          · cases h
          · rename_i hfit
            split at h
            · rename_i s hs
              split at h
              · cases h
              · rename_i hz
                have hz' : s.w.g_state.recv_buf_num_bytes = 0 := by
                  by_contra hne
                  exact hz hne
                obtain ⟨ha, hb⟩ := ih s.w s.buf s.expected_len w' buf' hz' h
                exact ⟨ha, ReadReach.next bytes rest w buf L s w' hL hb0 hfit hs hz' hb⟩
            · cases h
            · cases h
            · cases h
            · cases h

/-- C14. Receive-buffer invariant: starting from an empty buffer, in every
world that `read_response` passes through without terminating the program
(at the head of the outer loop, after a `recv` that was found to fit, in every
state of the inner loop, so after every `ConsumeMessage`), the count satisfies
`0 ≤ recv_buf_num_bytes ≤ 10000`; a `ConsumeMessage` that returns leaves the
count in that range; and when `read_response` returns (which is such a world)
the count is 0. -/
theorem C14_recv_buffer_invariant (K : KeyConstants) (fuel : Nat) (script : List RecvResult)
    (w : World) (buf : List Nat) (L : Nat)
    (hempty : w.g_state.recv_buf_num_bytes = 0)
    (hrecv : ∀ bytes, RecvResult.data bytes ∈ script → bytes.length ≤ 10000) :
    (∀ x, ReadReach K fuel script w buf L x →
      0 ≤ x.g_state.recv_buf_num_bytes ∧ x.g_state.recv_buf_num_bytes ≤ 10000) ∧
    (∀ x len x', ReadReach K fuel script w buf L x → ConsumeMessage len x = Res.ret x' →
      0 ≤ x'.g_state.recv_buf_num_bytes ∧ x'.g_state.recv_buf_num_bytes ≤ 10000) ∧
    (∀ w' buf', read_response K fuel script w buf L = Res.ret (w', buf') →
      ReadReach K fuel script w buf L w' ∧ w'.g_state.recv_buf_num_bytes = 0) := by
  refine ⟨?_, ?_, ?_⟩
  · intro x hx
    exact ReadReach_inRange K fuel script w buf L x hx hempty hrecv
  · intro x len x' hx hc
    have hin := ReadReach_inRange K fuel script w buf L x hx hempty hrecv
    have hint : x.g_state.recv_buf_num_bytes < 2 ^ 31 := by
      have := hin.2
      simp only [RECV_BUF_SIZE] at this
      omega
    exact ConsumeMessage_inRange len x x' hint hc
  · intro w' buf' hr
    obtain ⟨ha, hb⟩ := read_response_ret_empty K fuel script w buf L w' buf' hempty hr
    exact ⟨hb, ha⟩

/-- Witness of C14: a would-block result, then a chunk with a key-press frame
and the 40 byte reply, from the world after the handshake. -/
theorem C14_recv_buffer_invariant_witness :
    (∀ x, ReadReach sampleKeys 3
        [RecvResult.wouldBlock, RecvResult.data (samplePressFrame ++ sampleKeymapReply)]
        (handshakenWorld 0 0 64 4) (List.replicate 40 0) 40 x →
      0 ≤ x.g_state.recv_buf_num_bytes ∧ x.g_state.recv_buf_num_bytes ≤ 10000) ∧
    (∀ x len x', ReadReach sampleKeys 3
        [RecvResult.wouldBlock, RecvResult.data (samplePressFrame ++ sampleKeymapReply)]
        (handshakenWorld 0 0 64 4) (List.replicate 40 0) 40 x →
      ConsumeMessage len x = Res.ret x' →
      0 ≤ x'.g_state.recv_buf_num_bytes ∧ x'.g_state.recv_buf_num_bytes ≤ 10000) ∧
    (∀ w' buf', read_response sampleKeys 3
        [RecvResult.wouldBlock, RecvResult.data (samplePressFrame ++ sampleKeymapReply)]
        (handshakenWorld 0 0 64 4) (List.replicate 40 0) 40 = Res.ret (w', buf') →
      ReadReach sampleKeys 3
        [RecvResult.wouldBlock, RecvResult.data (samplePressFrame ++ sampleKeymapReply)]
        (handshakenWorld 0 0 64 4) (List.replicate 40 0) 40 w' ∧
      w'.g_state.recv_buf_num_bytes = 0) :=
  C14_recv_buffer_invariant sampleKeys 3
    [RecvResult.wouldBlock, RecvResult.data (samplePressFrame ++ sampleKeymapReply)]
    (handshakenWorld 0 0 64 4) (List.replicate 40 0) 40 rfl
    (by
      intro bytes hb
      simp only [List.mem_cons, List.mem_singleton, RecvResult.data.injEq, List.mem_nil_iff,
        or_false, false_or, reduceCtorEq] at hb
      subst hb
      decide)

/-- The function `ensure_state` is its sending half followed by its reading
half. -/
theorem ensure_state_eq_sends_reads (env : HandshakeEnv) (w : World)
    (hfd : w.g_state.socket_fd < 0) :
    ensure_state env w = (ensure_state_sends env w).bind (ensure_state_reads env) := by
  have hfd' : ¬ w.g_state.socket_fd ≥ 0 := by omega
  unfold ensure_state ensure_state_sends
  rw [if_neg hfd']
  by_cases h1 : env.socket_result < 0
  · rw [if_pos h1, if_pos h1]; rfl
  rw [if_neg h1, if_neg h1]
  by_cases h2 : env.connect_result < 0
  · rw [if_pos h2, if_pos h2]; rfl
  rw [if_neg h2, if_neg h2]
  cases hx : env.xauth_file with
  | none => rfl
  | some file =>
    dsimp only
    by_cases h3 : (file.take 4096).length < 16
    · rw [if_pos h3, if_pos h3]; rfl
    · rw [if_neg h3, if_neg h3]
      simp only [Res.bind_assoc]
      rfl

/-- C15. Connection request bytes: when the connection is not established,
`socket` and `connect` succeed, the credentials blob read from the file (at
most 4096 bytes) has length `n ≥ 16` and each of the next three `write` calls
takes all it is given, `ensure_state` makes three `send_buf` calls before its
first read, and the bytes they send are 48: the header
`6C 00 0B 00 00 00 12 00 10 00 00 00`, the 18 characters of
"MIT-MAGIC-COOKIE-1" and two zero bytes, and the last 16 bytes of the blob;
the reads of a handshake that returns come after them. -/
theorem C15_connection_request (env : HandshakeEnv) (w : World) (file : List Nat)
    (more : List WriteResult)
    (hfd : w.g_state.socket_fd < 0) (hsock : 0 ≤ env.socket_result)
    (hconn : 0 ≤ env.connect_result) (hfile : env.xauth_file = some file)
    (hn : 16 ≤ (file.take 4096).length)
    (hwrites : w.write_results = fullWrite :: fullWrite :: fullWrite :: more) :
    ∃ w4, ensure_state_sends env w = Res.ret w4 ∧
      ensure_state env w = ensure_state_reads env w4 ∧
      w4.traffic = w.traffic ++
        [Traffic.send connection_request, Traffic.send auth_proto_name,
         Traffic.send ((file.take 4096).drop ((file.take 4096).length - 16))] ∧
      sentBytes (w4.traffic.drop w.traffic.length)
        = [0x6C, 0x00, 0x0B, 0x00, 0x00, 0x00, 0x12, 0x00, 0x10, 0x00, 0x00, 0x00]
          ++ ("MIT-MAGIC-COOKIE-1".toList.map Char.toNat ++ [0, 0])
          ++ (file.take 4096).drop ((file.take 4096).length - 16) ∧
      (sentBytes (w4.traffic.drop w.traffic.length)).length = 48 ∧
      w4.write_results = more ∧
      (∀ w', ensure_state env w = Res.ret w' →
        w'.traffic = w4.traffic ++ [Traffic.read, Traffic.read]) := by
  have htake : ((file.take 4096).drop ((file.take 4096).length - 16)).take 16
      = (file.take 4096).drop ((file.take 4096).length - 16) := by
    apply List.take_of_length_le
    rw [List.length_drop]
    omega
  have hlen : ((file.take 4096).drop ((file.take 4096).length - 16)).length ≤ 262140 := by
    rw [List.length_drop]
    have := List.length_take_le 4096 file
    omega
  have hsends : ensure_state_sends env w
      = Res.ret
          { w with
              g_state := { w.g_state with socket_fd := env.socket_result }
              traffic := w.traffic ++
                [Traffic.send connection_request, Traffic.send auth_proto_name,
                 Traffic.send ((file.take 4096).drop ((file.take 4096).length - 16))]
              write_results := more } := by
    unfold ensure_state_sends
    rw [if_neg (by omega), if_neg (by omega), hfile]
    dsimp only
    rw [if_neg (by omega), htake]
    rw [send_buf_full connection_request
      { w with g_state := { w.g_state with socket_fd := env.socket_result } }
      (fullWrite :: fullWrite :: more) hwrites (by decide)]
    simp only [Res.bind]
    rw [send_buf_full _ _ (fullWrite :: more) rfl (by decide)]
    simp only [Res.bind]
    rw [send_buf_full _ _ more rfl hlen]
    simp
  refine ⟨_, hsends, ?_, rfl, ?_, ?_, rfl, ?_⟩
  · rw [ensure_state_eq_sends_reads env w hfd, hsends]
    rfl
  · simp only [List.drop_left, sentBytes, List.append_nil]
    rfl
  · simp only [List.drop_left, sentBytes, List.append_nil, List.length_append,
      List.length_drop]
    have h1 : connection_request.length = 12 := rfl
    have h2 : auth_proto_name.length = 20 := rfl
    rw [h1, h2]
    omega
  · intro w' hw'
    obtain ⟨file', _, _, hf', _, _, _, _, ht⟩ := ensure_state_ret env w w' hfd hw'
    rw [hfile] at hf'
    cases hf'
    rw [ht, htake]
    simp

/-- Witness of C15: the sample handshake, whose credentials file has 20
bytes; the 48 bytes sent are written out. -/
theorem C15_connection_request_witness :
    ∃ w4, ensure_state_sends (sampleHandshake (sampleBody 0 0 64 4)) initialWorld = Res.ret w4 ∧
      ensure_state (sampleHandshake (sampleBody 0 0 64 4)) initialWorld
        = ensure_state_reads (sampleHandshake (sampleBody 0 0 64 4)) w4 ∧
      w4.traffic = initialWorld.traffic ++
        [Traffic.send [108, 0, 11, 0, 0, 0, 18, 0, 16, 0, 0, 0],
         Traffic.send
          [77, 73, 84, 45, 77, 65, 71, 73, 67, 45, 67, 79, 79, 75, 73, 69, 45, 49, 0, 0],
         Traffic.send [1, 2, 3, 4, 5, 6, 7, 8, 9, 10, 11, 12, 13, 14, 15, 16]] ∧
      sentBytes (w4.traffic.drop initialWorld.traffic.length)
        = [0x6C, 0x00, 0x0B, 0x00, 0x00, 0x00, 0x12, 0x00, 0x10, 0x00, 0x00, 0x00]
          ++ ("MIT-MAGIC-COOKIE-1".toList.map Char.toNat ++ [0, 0])
          ++ [1, 2, 3, 4, 5, 6, 7, 8, 9, 10, 11, 12, 13, 14, 15, 16] ∧
      (sentBytes (w4.traffic.drop initialWorld.traffic.length)).length = 48 ∧
      w4.write_results = List.replicate 32 fullWrite ∧
      (∀ w', ensure_state (sampleHandshake (sampleBody 0 0 64 4)) initialWorld = Res.ret w' →
        w'.traffic = w4.traffic ++ [Traffic.read, Traffic.read]) :=
  C15_connection_request (sampleHandshake (sampleBody 0 0 64 4)) initialWorld
    [1, 0, 0, 4, 1, 2, 3, 4, 5, 6, 7, 8, 9, 10, 11, 12, 13, 14, 15, 16]
    (List.replicate 32 fullWrite)
    (by decide) (by decide) (by decide) rfl (by decide) rfl

/-- A pass of the inner loop of `read_response` when the first byte of the
buffer is none of 0, 1, 2, 3: the program terminates with "Got an unknown
message type", whatever the rest of the state. -/
theorem drainStep_unknown (K : KeyConstants) (s : DrainState) (b : Nat)
    (hb1 : 4 ≤ b) (hb2 : b ≤ 255) (hfront : byteAt s.w.g_state.recv_buf 0 = b) :
    drainStep K s = Res.fatal (Fatal.unknownMessageType (charOfByte b)) := by
  have hc : charOfByte b = if b < 128 then (b : Int) else (b : Int) - 256 := by
    unfold charOfByte
    rw [Nat.mod_eq_of_lt (by omega)]
  have h0 : charOfByte b ≠ 0 := by rw [hc]; split <;> omega
  have h1 : charOfByte b ≠ 1 := by rw [hc]; split <;> omega
  have h2 : charOfByte b ≠ 2 := by rw [hc]; split <;> omega
  have h3 : charOfByte b ≠ 3 := by rw [hc]; split <;> omega
  unfold drainStep
  rw [hfront]
  split
  · rename_i heq; exact absurd heq h0
  · rename_i heq; exact absurd heq h1
  · rename_i heq; exact absurd heq h2
  · rename_i heq; exact absurd heq h3
  · rfl

/-- One pass of the inner loop of `read_response` when the buffer holds the
expected reply followed by further bytes. -/
theorem drainStep_reply_more (K : KeyConstants) (s : DrainState) (reply more : List Nat)
    (hL : s.expected_len = reply.length) (hpos : 0 < reply.length)
    (h1 : byteAt reply 0 = 1) (h : Holds s.w (reply ++ more))
    (hsize : (reply ++ more).length ≤ 10000) :
    ∃ w', drainStep K s
        = Res.ret { s with w := w', buf := memWrite s.buf reply, expected_len := 0 } ∧
      Holds w' more ∧ w'.g_input = s.w.g_input ∧ w'.traffic = s.w.traffic := by
  have hlen : (reply ++ more).length = reply.length + more.length := List.length_append _ _
  have hb0 : byteAt s.w.g_state.recv_buf 0 = 1 := by
    rw [h.byteAt_eq 0 (by omega), byteAt_append_left _ _ _ hpos, h1]
  have hc : charOfByte (byteAt s.w.g_state.recv_buf 0) = 1 := by
    rw [hb0]; rfl
  have hge : toSizeT s.w.g_state.recv_buf_num_bytes ≥ reply.length := by
    rw [h.1, toSizeT_natCast _ (by omega)]
    omega
  have htake : s.w.g_state.recv_buf.take reply.length = reply := by
    obtain ⟨stale, hs⟩ := h.prefix_eq
    rw [hs, List.append_assoc, List.take_left]
  obtain ⟨w', hw', hh, hi, ht, _⟩ := ConsumeMessage_holds s.w reply more h hsize
  refine ⟨w', ?_, hh, hi, ht⟩
  unfold drainStep
  rw [hc]
  simp only [hL, hw', Res.bind, htake, if_pos hge]

/-- C16. Unrecognized frames are fatal: a pass of the inner loop of
`read_response` over a buffer whose first byte `b` is none of 0, 1, 2, 3 (as
an unsigned byte, 4..255) terminates the program with the unknown-message-type
diagnostic, whatever the expected length; and `read_response` ends so, and
does not return, when such a byte stands at the front of the received chunk,
after complete key event frames, or after the expected reply has been
consumed. -/
theorem C16_unknown_frame_fatal (K : KeyConstants) (fuel : Nat) (idle : List RecvResult)
    (frames : List (List Nat)) (pre tail : List Nat) (rest : List RecvResult)
    (w : World) (buf : List Nat) (L b : Nat)
    (hidle : ∀ r ∈ idle, r = RecvResult.wouldBlock ∨ r = RecvResult.data [])
    (hempty : w.g_state.recv_buf_num_bytes = 0)
    (hframes : ∀ f ∈ frames, f.length = 32 ∧ (byteAt f 0 = 2 ∨ byteAt f 0 = 3))
    (hL : 0 < L) (hpre : pre = [] ∨ (pre.length = L ∧ byteAt pre 0 = 1))
    (hb1 : 4 ≤ b) (hb2 : b ≤ 255)
    (hsize : (frames.flatten ++ (pre ++ b :: tail)).length ≤ 10000)
    (hfuel : frames.length + 1 < fuel) :
    (∀ s : DrainState, byteAt s.w.g_state.recv_buf 0 = b →
      drainStep K s = Res.fatal (Fatal.unknownMessageType (charOfByte b))) ∧
    read_response K fuel
        (idle ++ RecvResult.data (frames.flatten ++ (pre ++ b :: tail)) :: rest) w buf L
      = Res.fatal (Fatal.unknownMessageType (charOfByte b)) ∧
    ¬ ∃ r, read_response K fuel
        (idle ++ RecvResult.data (frames.flatten ++ (pre ++ b :: tail)) :: rest) w buf L
      = Res.ret r := by
  have hstep : ∀ s : DrainState, byteAt s.w.g_state.recv_buf 0 = b →
      drainStep K s = Res.fatal (Fatal.unknownMessageType (charOfByte b)) :=
    fun s hs => drainStep_unknown K s b hb1 hb2 hs
  have hmain : read_response K fuel
        (idle ++ RecvResult.data (frames.flatten ++ (pre ++ b :: tail)) :: rest) w buf L
      = Res.fatal (Fatal.unknownMessageType (charOfByte b)) := by
    obtain ⟨w0, hs0, _, hr0⟩ := read_response_idle K fuel
      (RecvResult.data (frames.flatten ++ (pre ++ b :: tail)) :: rest) buf L idle w hidle
    have hne : (frames.flatten ++ (pre ++ b :: tail)).length ≠ 0 := by
      simp only [List.length_append, List.length_cons]; omega
    obtain ⟨hh1, hr1⟩ := read_response_data K fuel (frames.flatten ++ (pre ++ b :: tail)) rest
      w0 buf L (by omega) hne (by rw [hs0]; exact hempty) hsize
    obtain ⟨m, hm⟩ : ∃ m, fuel = frames.length + (m + 2) := ⟨fuel - frames.length - 2, by omega⟩
    obtain ⟨w2, hh2, _, _, _, hloop⟩ := drainLoop_frames K frames
      { w := recvInto (frames.flatten ++ (pre ++ b :: tail))
          { w0 with traffic := w0.traffic ++ [Traffic.read] },
        buf := buf, expected_len := L, keep_going := 1 } (pre ++ b :: tail) (m + 2) hframes hh1
      hsize one_ne_zero
    have hsize2 : (pre ++ b :: tail).length ≤ 10000 := by
      rw [List.length_append] at hsize; omega
    rw [hr0, hr1, hm, hloop]
    rcases hpre with hnil | ⟨hlen, hfirst⟩
    · subst hnil
      rw [List.nil_append] at hh2
      have hnum2 : w2.g_state.recv_buf_num_bytes ≠ 0 := by
        rw [hh2.1, List.length_cons]; push_cast; omega
      have hfront : byteAt w2.g_state.recv_buf 0 = b := by
        rw [hh2.byteAt_eq 0 (by simp)]; rfl
      simp only [drainLoop, hnum2, ne_eq, not_false_eq_true, and_true, if_true, one_ne_zero]
      rw [hstep _ hfront]
      rfl
    · obtain ⟨w3, hstep3, hh3, _, _⟩ := drainStep_reply_more K
        { w := w2, buf := buf, expected_len := L, keep_going := 1 } pre (b :: tail)
        hlen.symm (by omega) hfirst hh2 hsize2
      have hnum2 : w2.g_state.recv_buf_num_bytes ≠ 0 := by
        rw [hh2.1, List.length_append]; push_cast; omega
      have hnum3 : w3.g_state.recv_buf_num_bytes ≠ 0 := by
        rw [hh3.1, List.length_cons]; push_cast; omega
      have hfront : byteAt w3.g_state.recv_buf 0 = b := by
        rw [hh3.byteAt_eq 0 (by simp)]; rfl
      simp only [drainLoop, hnum2, hnum3, ne_eq, not_false_eq_true, and_true, if_true,
        one_ne_zero, hstep3, Res.bind]
      rw [hstep _ hfront]
  refine ⟨hstep, hmain, ?_⟩
  rintro ⟨r, hr⟩
  rw [hmain] at hr
  cases hr

/-- Witness of C16: a chunk with a key-press frame, the 40 byte reply and then
a byte 200. -/
theorem C16_unknown_frame_fatal_witness :
    (∀ s : DrainState, byteAt s.w.g_state.recv_buf 0 = 200 →
      drainStep sampleKeys s = Res.fatal (Fatal.unknownMessageType (charOfByte 200))) ∧
    read_response sampleKeys 3
        ([] ++ RecvResult.data
          ([samplePressFrame].flatten ++ (sampleKeymapReply ++ 200 :: [])) :: [])
        (handshakenWorld 0 0 64 4) (List.replicate 40 0) 40
      = Res.fatal (Fatal.unknownMessageType (charOfByte 200)) ∧
    ¬ ∃ r, read_response sampleKeys 3
        ([] ++ RecvResult.data
          ([samplePressFrame].flatten ++ (sampleKeymapReply ++ 200 :: [])) :: [])
        (handshakenWorld 0 0 64 4) (List.replicate 40 0) 40
      = Res.ret r :=
  C16_unknown_frame_fatal sampleKeys 3 [] [samplePressFrame] sampleKeymapReply [] []
    (handshakenWorld 0 0 64 4) (List.replicate 40 0) 40 200
    (by simp) rfl (by decide) (by decide) (Or.inr ⟨by decide, by decide⟩)
    (by decide) (by decide) (by decide) (by decide)

/-- A pass of the inner loop of `read_response` after the expected reply has
been consumed (`expected_len = 0`), over a buffer whose first byte is 1: the
pass copies no byte, consumes no byte and leaves the state as it is. -/
theorem drainStep_stuck (K : KeyConstants) (s : DrainState) (more : List Nat)
    (hexp : s.expected_len = 0) (hpos : 0 < more.length) (h1 : byteAt more 0 = 1)
    (h : Holds s.w more) (hsize : more.length ≤ 10000) :
    drainStep K s = Res.ret s := by
  have hb0 : byteAt s.w.g_state.recv_buf 0 = 1 := by
    rw [h.byteAt_eq 0 hpos, h1]
  have hc : charOfByte (byteAt s.w.g_state.recv_buf 0) = 1 := by
    rw [hb0]; rfl
  obtain ⟨stale, hstale⟩ := h.prefix_eq
  have hnum := h.1
  obtain ⟨w, buf, expected_len, keep_going⟩ := s
  obtain ⟨st, inp, traffic⟩ := w
  obtain ⟨fd, recv_buf, n, hdr, body, pf, sc, nid, gid, wid⟩ := st
  simp only at hexp hc hstale hnum
  subst hexp hstale hnum
  unfold drainStep
  simp only [hc]
  have hge : toSizeT ((more.length : Nat) : Int) ≥ 0 := Nat.zero_le _
  rw [if_pos hge]
  have hsz : ¬ toSizeT ((more.length : Nat) : Int) > RECV_BUF_SIZE := by
    rw [toSizeT_natCast _ (by omega)]
    simp only [RECV_BUF_SIZE]; omega
  simp only [ConsumeMessage, Nat.cast_zero, sub_zero, Int.toNat_zero, List.drop_zero,
    Int.toNat_ofNat, List.take_left, memWrite, List.drop_left, List.take_zero,
    List.length_nil, List.nil_append, Res.bind]
  rw [if_neg (by omega), if_neg hsz]

/-- The inner loop of `read_response` from a state that a pass leaves as it
is: it uses up any fuel. -/
theorem drainLoop_stuck (K : KeyConstants) (s : DrainState)
    (hcond : s.keep_going ≠ 0 ∧ s.w.g_state.recv_buf_num_bytes ≠ 0)
    (hstep : drainStep K s = Res.ret s) :
    ∀ fuel, drainLoop K fuel s = Res.spin := by
  intro fuel
  induction fuel with
  | zero => simp only [drainLoop, if_pos hcond]
  | succ fuel ih => simp only [drainLoop, if_pos hcond, hstep, Res.bind, ih]

/-- The expected reply followed in the same chunk by a byte 1: once the reply
is consumed, the inner loop of `read_response` never ends. -/
theorem read_response_spins (K : KeyConstants) (fuel : Nat) (idle : List RecvResult)
    (reply more : List Nat) (rest : List RecvResult) (w : World) (buf : List Nat) (L : Nat)
    (hidle : ∀ r ∈ idle, r = RecvResult.wouldBlock ∨ r = RecvResult.data [])
    (hempty : w.g_state.recv_buf_num_bytes = 0)
    (hL : 0 < L) (hreply : reply.length = L) (hfirst : byteAt reply 0 = 1)
    (hmore : 0 < more.length) (hmore1 : byteAt more 0 = 1)
    (hsize : (reply ++ more).length ≤ 10000) :
    read_response K fuel (idle ++ RecvResult.data (reply ++ more) :: rest) w buf L
      = Res.spin := by
  obtain ⟨w0, hs0, _, hr0⟩ := read_response_idle K fuel
    (RecvResult.data (reply ++ more) :: rest) buf L idle w hidle
  have hlen : (reply ++ more).length = reply.length + more.length := List.length_append _ _
  obtain ⟨hh1, hr1⟩ := read_response_data K fuel (reply ++ more) rest w0 buf L (by omega)
    (by omega) (by rw [hs0]; exact hempty) hsize
  rw [hr0, hr1]
  have hnum1 : (recvInto (reply ++ more)
      { w0 with traffic := w0.traffic ++ [Traffic.read] }).g_state.recv_buf_num_bytes ≠ 0 := by
    rw [hh1.1, hlen]; push_cast; omega
  cases fuel with
  | zero =>
    simp only [drainLoop, hnum1, ne_eq, not_false_eq_true, and_true, if_true, one_ne_zero,
      Res.bind]
  | succ fuel =>
    obtain ⟨w2, hstep, hh2, _, _⟩ := drainStep_reply_more K
      { w := recvInto (reply ++ more) { w0 with traffic := w0.traffic ++ [Traffic.read] },
        buf := buf, expected_len := L, keep_going := 1 } reply more hreply.symm (by omega)
      hfirst hh1 hsize
    have hnum2 : w2.g_state.recv_buf_num_bytes ≠ 0 := by
      rw [hh2.1]; omega
    have hstuck := drainStep_stuck K
      { w := w2, buf := memWrite buf reply, expected_len := 0, keep_going := 1 } more rfl hmore
      hmore1 hh2 (by omega)
    have hspin := drainLoop_stuck K
      { w := w2, buf := memWrite buf reply, expected_len := 0, keep_going := 1 }
      ⟨one_ne_zero, hnum2⟩ hstuck fuel
    simp only [drainLoop, hnum1, ne_eq, not_false_eq_true, and_true, if_true, one_ne_zero,
      hstep, Res.bind, hspin]

/-- C18 (the code at the failing input). Two replies of 40 bytes in one
chunk, with a reply of 40 bytes expected: whatever the fuel, the inner loop of
`read_response` does not end.  After the first reply is consumed, a pass over
the second (first byte 1, `expected_len = 0`) removes no byte, does not stop
the loop and does not terminate the program. -/
theorem C18_drain_loop_spins (fuel : Nat) :
    read_response sampleKeys fuel [RecvResult.data (sampleKeymapReply ++ sampleKeymapReply)]
        (handshakenWorld 0 0 64 4) (List.replicate 40 0) 40
      = Res.spin ∧
    ∀ s : DrainState, s.expected_len = 0 → Holds s.w sampleKeymapReply →
      drainStep sampleKeys s = Res.ret s := by
  constructor
  · have h := read_response_spins sampleKeys fuel [] sampleKeymapReply sampleKeymapReply []
      (handshakenWorld 0 0 64 4) (List.replicate 40 0) 40 (by simp) rfl (by decide)
      (by decide) (by decide) (by decide) (by decide) (by decide)
    rw [List.nil_append] at h
    exact h
  · intro s hexp hh
    exact drainStep_stuck sampleKeys s sampleKeymapReply hexp (by decide) (by decide) hh
      (by decide)

/-- C20. Desktop resolution decode: after a handshake that returns with a
reply body of vendor-string length `v` and pixmap-format count `f` that is at
least `32 + v + 8 * f + 24` bytes long, with `s = 32 + v + 8 * f`,
`GetDesktopRes` (whether it performs the handshake or finds the connection
established) returns as width and height the little-endian 16 bit values at
byte offsets `s + 20` and `s + 22` of the body, and the root window id that
`CreateWin` puts into its create-window request is the little-endian 32 bit
value at offset `s` (`CreateWin` returns when its three `write` calls take all
they are given). -/
theorem C20_desktop_resolution (InitInput : InputState → InputState) (env env2 : HandshakeEnv)
    (cenv : CreateWinEnv) (width height : Nat) (w w' : World) (body : List Nat)
    (hfd : w.g_state.socket_fd < 0) (h : ensure_state env w = Res.ret w')
    (hbody : body = w'.g_state.connection_reply_success_body)
    (hlen : 32 + vendor_len body + 8 * num_pixmap_formats body + 24 ≤ body.length)
    (hget : cenv.fcntl_getfl ≠ -1) (hset : cenv.fcntl_setfl = 0) :
    env.body_read = some body ∧
    GetDesktopRes env w
      = Res.ret (w', le16At body (32 + vendor_len body + 8 * num_pixmap_formats body + 20),
          le16At body (32 + vendor_len body + 8 * num_pixmap_formats body + 22)) ∧
    GetDesktopRes env2 w'
      = Res.ret (w', le16At body (32 + vendor_len body + 8 * num_pixmap_formats body + 20),
          le16At body (32 + vendor_len body + 8 * num_pixmap_formats body + 22)) ∧
    screen0_root_id w'.g_state
      = le32At body (32 + vendor_len body + 8 * num_pixmap_formats body) ∧
    (∀ more, w'.write_results = fullWrite :: fullWrite :: fullWrite :: more →
      ∃ w'', CreateWin InitInput cenv width height w' = Res.ret w'' ∧
        (w''.traffic.drop w'.traffic.length).head?
          = some (Traffic.send (wordsToBytes
              (create_window_packet w'.g_state.next_resource_id
                (le32At body (32 + vendor_len body + 8 * num_pixmap_formats body))
                width height)))) := by
  obtain ⟨file, header, body', _, _, hb, hst, _, _⟩ := ensure_state_ret env w w' hfd h
  have hbody' : body' = body := by rw [hbody, hst]
  subst hbody'
  have hscreens : w'.g_state.screens
      = 32 + vendor_len body' + 8 * num_pixmap_formats body' := by rw [hst]; rfl
  have hfd' : w'.g_state.socket_fd ≥ 0 := by
    have hw : ¬ w.g_state.socket_fd ≥ 0 := by omega
    rw [hst]
    simp only [ensure_state, if_neg hw] at h
    by_cases h1 : env.socket_result < 0
    · simp [h1] at h
    · show env.socket_result ≥ 0
      omega
  have hnot : ¬ w'.g_state.connection_reply_success_body.length
      < w'.g_state.screens + offsetof_screen_height + 2 := by
    rw [← hbody, hscreens]
    simp only [offsetof_screen_height, offsetof_screen_width]
    omega
  have hroot : screen0_root_id w'.g_state
      = le32At body' (32 + vendor_len body' + 8 * num_pixmap_formats body') := by
    unfold screen0_root_id
    rw [← hbody, hscreens]
    rfl
  refine ⟨hb, ?_, ?_, hroot, ?_⟩
  · unfold GetDesktopRes
    rw [h]
    simp only [Res.bind]
    rw [if_neg hnot, ← hbody, hscreens]
    rfl
  · unfold GetDesktopRes
    rw [ensure_state_established env2 w' hfd']
    simp only [Res.bind]
    rw [if_neg hnot, ← hbody, hscreens]
    rfl
  · intro more hwrites
    have hset' : ¬ cenv.fcntl_setfl ≠ 0 := by simp [hset]
    simp only [CreateWin, ensure_state_established cenv.handshake w' hfd', Res.bind]
    rw [send_buf_full _ _ (fullWrite :: fullWrite :: more) (by simp [generate_id, hwrites])
      (by rw [length_wordsToBytes]; simp [create_window_packet])]
    simp only [create_gc]
    rw [send_buf_full _ _ (fullWrite :: more) (by simp [generate_id])
      (by rw [length_wordsToBytes]; simp [create_gc_packet])]
    simp only [map_window]
    rw [send_buf_full _ _ more (by simp [generate_id])
      (by simp [map_window_packet, wordsToBytes, le32])]
    simp only [hget, hset', if_false]
    refine ⟨_, rfl, ?_⟩
    simp only [generate_id, List.append_assoc,
      List.drop_left, List.singleton_append, List.head?_cons]
    rw [← hroot]
    rfl

/-- Witness of C20: the sample handshake, whose reply body has `v = 4`,
`f = 1` and a screen of 1920 by 1080 pixels; the `write` calls of `CreateWin`
take all they are given. -/
theorem C20_desktop_resolution_witness :
    (sampleHandshake (sampleBody 0 0 64 4)).body_read = some (sampleBody 0 0 64 4) ∧
    GetDesktopRes (sampleHandshake (sampleBody 0 0 64 4)) initialWorld
      = Res.ret (handshakenWorld 0 0 64 4,
          le16At (sampleBody 0 0 64 4)
            (32 + vendor_len (sampleBody 0 0 64 4)
              + 8 * num_pixmap_formats (sampleBody 0 0 64 4) + 20),
          le16At (sampleBody 0 0 64 4)
            (32 + vendor_len (sampleBody 0 0 64 4)
              + 8 * num_pixmap_formats (sampleBody 0 0 64 4) + 22)) ∧
    GetDesktopRes (sampleHandshake (sampleBody 1 0 0 0)) (handshakenWorld 0 0 64 4)
      = Res.ret (handshakenWorld 0 0 64 4,
          le16At (sampleBody 0 0 64 4)
            (32 + vendor_len (sampleBody 0 0 64 4)
              + 8 * num_pixmap_formats (sampleBody 0 0 64 4) + 20),
          le16At (sampleBody 0 0 64 4)
            (32 + vendor_len (sampleBody 0 0 64 4)
              + 8 * num_pixmap_formats (sampleBody 0 0 64 4) + 22)) ∧
    screen0_root_id (handshakenWorld 0 0 64 4).g_state
      = le32At (sampleBody 0 0 64 4)
          (32 + vendor_len (sampleBody 0 0 64 4)
            + 8 * num_pixmap_formats (sampleBody 0 0 64 4)) ∧
    ∃ w'', CreateWin id { handshake := sampleHandshake (sampleBody 0 0 64 4),
                          fcntl_getfl := 2, fcntl_setfl := 0 } 800 600
          (handshakenWorld 0 0 64 4) = Res.ret w'' ∧
      (w''.traffic.drop (handshakenWorld 0 0 64 4).traffic.length).head?
        = some (Traffic.send (wordsToBytes
            (create_window_packet (handshakenWorld 0 0 64 4).g_state.next_resource_id
              (le32At (sampleBody 0 0 64 4)
                (32 + vendor_len (sampleBody 0 0 64 4)
                  + 8 * num_pixmap_formats (sampleBody 0 0 64 4)))
              800 600))) :=
  have h := C20_desktop_resolution id (sampleHandshake (sampleBody 0 0 64 4))
    (sampleHandshake (sampleBody 1 0 0 0))
    { handshake := sampleHandshake (sampleBody 0 0 64 4), fcntl_getfl := 2, fcntl_setfl := 0 }
    800 600 initialWorld (handshakenWorld 0 0 64 4) (sampleBody 0 0 64 4)
    (by decide) rfl rfl (by decide) (by decide) rfl
  ⟨h.1, h.2.1, h.2.2.1, h.2.2.2.1, h.2.2.2.2 (List.replicate 29 fullWrite) rfl⟩

/-- The resolution that `GetDesktopRes` returns after the sample handshake. -/
theorem GetDesktopRes_sample :
    GetDesktopRes (sampleHandshake (sampleBody 0 0 64 4)) initialWorld
      = Res.ret (handshakenWorld 0 0 64 4, 1920, 1080) := by
  rfl

end X11
